import Mathlib

/-!
Verification of the amortization simulator `calculate_loan` from `src/app.py`
(Loan-Comparison repository).

The Python function computes, month by month, the repayment of a mortgage-style
loan under two repayment policies ("元利均等返済" = equal total payment /
annuity, "元金均等返済" = equal principal installment), applying scheduled
interest-rate changes and one-off early repayments.  It returns a 5-tuple
`(first_month_payment, total_payment, final_balance, balance_history,
annual_payments_list)`.

Modelling conventions of this shallow embedding:

* Python float arithmetic is modelled by exact rational arithmetic (`ℚ`).
* Python's `OverflowError` raised by the float exponentiation
  `(1 + r) ** n` is modelled by an explicit magnitude check against
  `floatMax = 2 ^ 1024`, the boundary of the IEEE double range; the
  `st.error(...)` call on that path (the only side effect on any path of the
  function) is modelled by the `overflow_error` flag of the result.
* Months, years and term lengths are natural numbers; the source filters out
  non-positive months before the loop, so values `≤ 0` only matter through
  those filters (month `0` plays the role of every non-positive month).
* The Python code sorts the rate-change and early-repayment lists with the
  stable `sorted(...)`; this is modelled by `List.insertionSort`, which is
  stable for equal keys in the same way.
* `early_repayments_sorted[er_idx]['amount'] = 0` mutates dict entries that
  are shared with the caller's input list.  The embedding threads the list of
  entry states through the loop (`early_repayments` field of `SimState`) and
  `calculate_loan_ers` returns their final states, so the in-place consumption
  of early repayments is observable in the model.
-/

/-- One entry of the `rate_changes` argument: a dict
`{'month': ..., 'new_rate': ...}` in `src/app.py`. -/
structure RateChange where
  month : ℕ
  new_rate : ℚ
deriving DecidableEq

/-- One entry of the `early_repayments` argument: a dict
`{'month': ..., 'amount': ...}` in `src/app.py`. -/
structure EarlyRepayment where
  month : ℕ
  amount : ℚ
deriving DecidableEq

/-- The `repayment_type` string argument; the code compares it against the two
literals "元利均等返済" (equal payment / annuity) and "元金均等返済"
(equal principal). -/
inductive RepaymentType where
  | equalPayment
  | equalPrincipal
deriving DecidableEq

/-- The argument tuple of `calculate_loan` (src/app.py lines 126-127). -/
structure LoanConfig where
  loan_amount : ℚ
  annual_interest_rate : ℚ
  loan_term_years : ℕ
  repayment_type : RepaymentType
  down_payment : ℚ
  early_repayments : List EarlyRepayment
  rate_changes : List RateChange
deriving DecidableEq

/-- Model of the magnitude at which the float power `(1 + r) ** n` raises
`OverflowError`: the edge of the IEEE double range. -/
def floatMax : ℚ := 2 ^ 1024

/-- The loop-local mutable state of `calculate_loan`
(src/app.py lines 150-170): `current_principal`, `total_payment`,
`first_month_payment`, `payments_made`, `balance_history`, `annual_payments`
(a dict in insertion order, modelled as an association list), the current
rates, and the states of the early-repayment dicts shared with the caller. -/
structure SimState where
  current_principal : ℚ
  total_payment : ℚ
  first_month_payment : ℚ
  payments_made : ℕ
  balance_history : List (ℕ × ℚ)
  annual_payments : List (ℕ × ℚ)
  current_annual_rate : ℚ
  current_monthly_rate : ℚ
  early_repayments : List EarlyRepayment
deriving DecidableEq

/-- Outcome of the monthly loop: either it runs to completion / early payoff
(`ok`, carrying the final state), or the `OverflowError` handler at
src/app.py lines 205-207 fires (`overflow`, carrying `current_principal` at
the abort and the states of the early-repayment entries at that point). -/
inductive LoopOut where
  | ok : SimState → LoopOut
  | overflow : ℚ → List EarlyRepayment → LoopOut
deriving DecidableEq

/-- The rate-change scan at src/app.py lines 184-188: every entry of the
sorted list whose month equals the current month overwrites
`current_annual_rate` and `current_monthly_rate` (the last match wins).
Returns the pair (annual rate, monthly rate). -/
def applyRateChanges (month : ℕ) (rcs : List RateChange) (ar mr : ℚ) : ℚ × ℚ :=
  match rcs with
  | [] => (ar, mr)
  | rc :: rest =>
    if month = rc.month then
      applyRateChanges month rest rc.new_rate (rc.new_rate / 100 / 12)
    else
      applyRateChanges month rest ar mr

/-- The payment computation at src/app.py lines 190-229, for one month.
Returns `some (monthly_payment, principal_component)` after the clamping at
lines 212-216 resp. 226-229, or `none` when the annuity exponentiation
overflows (the `except OverflowError` branch, lines 205-207).
`principal` is the original principal (`loan_amount - down_payment`),
`nTotal` is `number_of_payments_total`, `cp` is `current_principal` and
`mr` is `current_monthly_rate`. -/
def computePayment (rt : RepaymentType) (principal : ℚ) (nTotal payments_made : ℕ)
    (cp mr : ℚ) : Option (ℚ × ℚ) :=
  match rt with
  | .equalPayment =>
    let remaining : ℕ := nTotal - payments_made
    if remaining ≤ 0 then
      -- `monthly_payment = current_principal` (line 195)
      let payment := cp
      let interest := cp * mr
      let pc := payment - interest
      let pc := if pc < 0 then 0 else pc
      if pc > cp then some (cp + interest, cp) else some (payment, pc)
    else if mr = 0 then
      let payment := cp / (remaining : ℚ)
      let interest := cp * mr
      let pc := payment - interest
      let pc := if pc < 0 then 0 else pc
      if pc > cp then some (cp + interest, cp) else some (payment, pc)
    else
      let pow : ℚ := (1 + mr) ^ remaining
      if floatMax < pow ∨ pow < -floatMax then
        none
      else
        let payment :=
          if pow - 1 = 0 then cp / (remaining : ℚ)  -- ZeroDivisionError fallback
          else cp * (mr * pow) / (pow - 1)
        let interest := cp * mr
        let pc := payment - interest
        let pc := if pc < 0 then 0 else pc
        if pc > cp then some (cp + interest, cp) else some (payment, pc)
  | .equalPrincipal =>
    let mpp := principal / (nTotal : ℚ)
    let interest := cp * mr
    let payment := mpp + interest
    let pc := mpp
    if pc > cp then some (cp + interest, cp) else some (payment, pc)

/-- The early-repayment scan at src/app.py lines 242-248: every entry whose
month equals the current month and whose amount is still positive is
subtracted from the balance (no flooring) and its amount is set to `0`
in place; if the balance drops to `≤ 0` the scan `break`s, leaving the
remaining entries untouched.  Returns the new balance and the new entry
states. -/
def applyEarlyRepayments (month : ℕ) (cp : ℚ) :
    List EarlyRepayment → ℚ × List EarlyRepayment
  | [] => (cp, [])
  | er :: rest =>
    if month = er.month ∧ 0 < er.amount then
      let cp' := cp - er.amount
      if cp' ≤ 0 then
        (cp', ⟨er.month, 0⟩ :: rest)
      else
        let r := applyEarlyRepayments month cp' rest
        (r.1, ⟨er.month, 0⟩ :: r.2)
    else
      let r := applyEarlyRepayments month cp rest
      (r.1, er :: r.2)

/-- The dict update `annual_payments[current_year] =
annual_payments.get(current_year, 0) + monthly_payment` (line 232), on the
association-list model of the insertion-ordered dict. -/
def addAnnual (l : List (ℕ × ℚ)) (year : ℕ) (payment : ℚ) : List (ℕ × ℚ) :=
  match l with
  | [] => [(year, payment)]
  | (y, t) :: rest =>
    if y = year then (y, t + payment) :: rest
    else (y, t) :: addAnnual rest year payment

/-- The zero-balance records appended for months `month .. nTotal` by the
early-payoff branch at src/app.py lines 177-182. -/
def zerosFrom (month nTotal : ℕ) : List (ℕ × ℚ) :=
  (List.range' month (nTotal + 1 - month)).map fun k => (k, (0 : ℚ))

/-- The state update done by one active month of the loop once the payment
and its principal component are known (src/app.py lines 231-250): add the
payment to the current year's bucket (`current_year = math.ceil(month / 12)`,
line 175) and to the total, reduce the balance by the principal component,
capture the first month's payment, apply the early repayments scheduled for
this month and record `(month, max(0, balance))`. -/
def monthStep (rcs : List RateChange) (month : ℕ) (st : SimState)
    (payment pc : ℚ) : SimState :=
  let rm := applyRateChanges month rcs st.current_annual_rate st.current_monthly_rate
  let year := (month + 11) / 12  -- math.ceil(month / 12) for natural month
  let cp1 := st.current_principal - pc
  let er := applyEarlyRepayments month cp1 st.early_repayments
  { current_principal := er.1
    total_payment := st.total_payment + payment
    first_month_payment := if month = 1 then payment else st.first_month_payment
    payments_made := st.payments_made + 1
    balance_history := st.balance_history ++ [(month, max 0 er.1)]
    annual_payments := addAnnual st.annual_payments year payment
    current_annual_rate := rm.1
    current_monthly_rate := rm.2
    early_repayments := er.2 }

/-- The monthly simulation loop, src/app.py lines 173-250.  `month` is the
loop variable of `for month in range(1, number_of_payments_total + 1)` and
`fuel` the number of iterations still to run (`calculate_loan` starts it
at `month = 1`, `fuel = nTotal`). -/
def loanLoop (rt : RepaymentType) (principal : ℚ) (nTotal : ℕ)
    (rcs : List RateChange) : ℕ → ℕ → SimState → LoopOut
  | _, 0, st => .ok st
  | month, fuel + 1, st =>
    if st.current_principal ≤ 0 then
      -- loan already repaid: record zero balances and stop (lines 177-182)
      .ok { st with balance_history := st.balance_history ++ zerosFrom month nTotal }
    else
      match computePayment rt principal nTotal st.payments_made st.current_principal
          (applyRateChanges month rcs st.current_annual_rate st.current_monthly_rate).2 with
      | none => .overflow st.current_principal st.early_repayments
      | some (payment, pc) =>
        loanLoop rt principal nTotal rcs (month + 1) fuel
          (monthStep rcs month st payment pc)

/-- The `while len(balance_history) < number_of_payments_total` padding loop
(src/app.py lines 254-255), in closed form: append `(len+1, 0), ..., (nTotal, 0)`. -/
def padHistory (h : List (ℕ × ℚ)) (nTotal : ℕ) : List (ℕ × ℚ) :=
  h ++ (List.range' (h.length + 1) (nTotal - h.length)).map fun m => (m, (0 : ℚ))

/-- `rate_changes_sorted` (src/app.py lines 158-161): filter out non-positive
months, stable-sort by month. -/
def sortedRateChanges (cfg : LoanConfig) : List RateChange :=
  List.insertionSort (fun a b => a.month ≤ b.month)
    (cfg.rate_changes.filter fun rc => 0 < rc.month)

/-- `early_repayments_sorted` (src/app.py lines 163-166): filter out
non-positive months and non-positive amounts, stable-sort by month. -/
def sortedEarlyRepayments (cfg : LoanConfig) : List EarlyRepayment :=
  List.insertionSort (fun a b => a.month ≤ b.month)
    (cfg.early_repayments.filter fun er => 0 < er.month ∧ 0 < er.amount)

/-- The initial loop state of `calculate_loan` (src/app.py lines 150-170). -/
def initState (cfg : LoanConfig) : SimState :=
  { current_principal := cfg.loan_amount - cfg.down_payment
    total_payment := 0
    first_month_payment := 0
    payments_made := 0
    balance_history := []
    annual_payments := []
    current_annual_rate := cfg.annual_interest_rate
    current_monthly_rate := cfg.annual_interest_rate / 100 / 12
    early_repayments := sortedEarlyRepayments cfg }

/-- The full run of the monthly loop for a configuration whose principal is
positive. -/
def calcLoanOut (cfg : LoanConfig) : LoopOut :=
  loanLoop cfg.repayment_type (cfg.loan_amount - cfg.down_payment)
    (cfg.loan_term_years * 12) (sortedRateChanges cfg) 1
    (cfg.loan_term_years * 12) (initState cfg)

/-- The return tuple of `calculate_loan`, plus the `overflow_error` flag
modelling the `st.error(...)` call on the overflow path (the function's only
side effect besides the input mutation). -/
structure LoanResult where
  first_month_payment : ℚ
  total_payment : ℚ
  final_balance : ℚ
  balance_history : List (ℕ × ℚ)
  annual_payments : List (ℕ × ℚ)
  overflow_error : Bool
deriving DecidableEq

/-- `calculate_loan` (src/app.py lines 126-261) together with the final
states of the early-repayment entries shared with the caller. -/
def calcLoanFull (cfg : LoanConfig) : LoanResult × List EarlyRepayment :=
  let principal := cfg.loan_amount - cfg.down_payment
  if principal ≤ 0 then
    (⟨0, 0, 0, [], [], false⟩, sortedEarlyRepayments cfg)
  else
    match calcLoanOut cfg with
    | .overflow b ers => (⟨0, 0, b, [], [], true⟩, ers)
    | .ok st =>
      (⟨st.first_month_payment, st.total_payment, max 0 st.current_principal,
        padHistory st.balance_history (cfg.loan_term_years * 12),
        List.insertionSort (fun a b => a.1 ≤ b.1) st.annual_payments,
        false⟩, st.early_repayments)

/-- The result tuple of `calculate_loan`. -/
def calculate_loan (cfg : LoanConfig) : LoanResult :=
  (calcLoanFull cfg).1

/-- The final states of the early-repayment dicts after `calculate_loan`:
because `sorted` returns a list of references to the caller's dicts, these
are exactly the entries the caller's list holds after the call. -/
def calculate_loan_ers (cfg : LoanConfig) : List EarlyRepayment :=
  (calcLoanFull cfg).2

/-! ### Basic facts about the early-repayment scan -/

/-- The states of the early-repayment entries (the dicts shared with the
caller) in a loop outcome. -/
def ersOut : LoopOut → List EarlyRepayment
  | .ok st => st.early_repayments
  | .overflow _ ers => ers

/-- How one early-repayment dict may evolve during the simulation: the month
is never written, and the amount is either untouched or zeroed by the
consumption write at src/app.py line 245. -/
def erRel (e e' : EarlyRepayment) : Prop :=
  e'.month = e.month ∧ (e'.amount = e.amount ∨ e'.amount = 0)

theorem erRel_refl (e : EarlyRepayment) : erRel e e :=
  ⟨rfl, Or.inl rfl⟩

theorem forall₂_erRel_refl (l : List EarlyRepayment) : List.Forall₂ erRel l l :=
  List.forall₂_same.2 fun e _ => erRel_refl e

theorem forall₂_erRel_trans :
    ∀ {a b c : List EarlyRepayment}, List.Forall₂ erRel a b → List.Forall₂ erRel b c →
      List.Forall₂ erRel a c := by
  intro a b c hab
  induction hab generalizing c with
  | nil =>
    intro hbc
    cases hbc
    exact List.Forall₂.nil
  | cons h₁ _ ih =>
    intro hbc
    cases hbc with
    | cons h₂ t₂ =>
      refine List.Forall₂.cons ⟨h₂.1.trans h₁.1, ?_⟩ (ih t₂)
      rcases h₂.2 with h | h
      · rcases h₁.2 with h' | h'
        · exact Or.inl (h.trans h')
        · exact Or.inr (h.trans h')
      · exact Or.inr h

theorem applyEarlyRepayments_fst_le (month : ℕ) :
    ∀ (l : List EarlyRepayment) (cp : ℚ), (applyEarlyRepayments month cp l).1 ≤ cp := by
  intro l
  induction l with
  | nil => intro cp; simp [applyEarlyRepayments]
  | cons er rest ih =>
    intro cp
    by_cases h : month = er.month ∧ 0 < er.amount
    · simp only [applyEarlyRepayments, if_pos h]
      by_cases h2 : cp - er.amount ≤ 0
      · simp only [if_pos h2]
        linarith [h.2]
      · simp only [if_neg h2]
        have := ih (cp - er.amount)
        linarith [h.2]
    · simp only [applyEarlyRepayments, if_neg h]
      exact ih cp

theorem applyEarlyRepayments_rel (month : ℕ) :
    ∀ (l : List EarlyRepayment) (cp : ℚ),
      List.Forall₂ erRel l (applyEarlyRepayments month cp l).2 := by
  intro l
  induction l with
  | nil => intro cp; exact List.Forall₂.nil
  | cons er rest ih =>
    intro cp
    by_cases h : month = er.month ∧ 0 < er.amount
    · simp only [applyEarlyRepayments, if_pos h]
      by_cases h2 : cp - er.amount ≤ 0
      · simp only [if_pos h2]
        exact List.Forall₂.cons ⟨rfl, Or.inr rfl⟩ (forall₂_erRel_refl rest)
      · simp only [if_neg h2]
        exact List.Forall₂.cons ⟨rfl, Or.inr rfl⟩ (ih _)
    · simp only [applyEarlyRepayments, if_neg h]
      exact List.Forall₂.cons (erRel_refl er) (ih cp)

/-- Along the whole loop, each early-repayment entry keeps its month and its
amount is either untouched or zeroed. -/
theorem loanLoop_ers (rt : RepaymentType) (principal : ℚ) (nTotal : ℕ)
    (rcs : List RateChange) :
    ∀ (fuel month : ℕ) (st : SimState),
      List.Forall₂ erRel st.early_repayments
        (ersOut (loanLoop rt principal nTotal rcs month fuel st)) := by
  intro fuel
  induction fuel with
  | zero => intro month st; exact forall₂_erRel_refl _
  | succ fuel ih =>
    intro month st
    rw [loanLoop]
    by_cases h : st.current_principal ≤ 0
    · simp only [if_pos h]
      exact forall₂_erRel_refl _
    · simp only [if_neg h]
      cases hcp : computePayment rt principal nTotal st.payments_made st.current_principal
          (applyRateChanges month rcs st.current_annual_rate st.current_monthly_rate).2 with
      | none => exact forall₂_erRel_refl _
      | some p =>
        obtain ⟨payment, pc⟩ := p
        show List.Forall₂ erRel st.early_repayments
          (ersOut (loanLoop rt principal nTotal rcs (month + 1) fuel
            (monthStep rcs month st payment pc)))
        exact forall₂_erRel_trans
          (applyEarlyRepayments_rel month st.early_repayments (st.current_principal - pc))
          (ih (month + 1) (monthStep rcs month st payment pc))
theorem monthStep_current_principal (rcs : List RateChange) (month : ℕ) (st : SimState)
    (payment pc : ℚ) :
    (monthStep rcs month st payment pc).current_principal =
      (applyEarlyRepayments month (st.current_principal - pc) st.early_repayments).1 := rfl

theorem monthStep_total_payment (rcs : List RateChange) (month : ℕ) (st : SimState)
    (payment pc : ℚ) :
    (monthStep rcs month st payment pc).total_payment = st.total_payment + payment := rfl

theorem monthStep_payments_made (rcs : List RateChange) (month : ℕ) (st : SimState)
    (payment pc : ℚ) :
    (monthStep rcs month st payment pc).payments_made = st.payments_made + 1 := rfl

theorem monthStep_balance_history (rcs : List RateChange) (month : ℕ) (st : SimState)
    (payment pc : ℚ) :
    (monthStep rcs month st payment pc).balance_history =
      st.balance_history ++
        [(month, max 0 (applyEarlyRepayments month (st.current_principal - pc)
          st.early_repayments).1)] := rfl

theorem monthStep_annual_payments (rcs : List RateChange) (month : ℕ) (st : SimState)
    (payment pc : ℚ) :
    (monthStep rcs month st payment pc).annual_payments =
      addAnnual st.annual_payments ((month + 11) / 12) payment := rfl

theorem monthStep_monthly_rate (rcs : List RateChange) (month : ℕ) (st : SimState)
    (payment pc : ℚ) :
    (monthStep rcs month st payment pc).current_monthly_rate =
      (applyRateChanges month rcs st.current_annual_rate st.current_monthly_rate).2 := rfl

theorem monthStep_early_repayments (rcs : List RateChange) (month : ℕ) (st : SimState)
    (payment pc : ℚ) :
    (monthStep rcs month st payment pc).early_repayments =
      (applyEarlyRepayments month (st.current_principal - pc) st.early_repayments).2 := rfl

theorem monthStep_first_month_payment (rcs : List RateChange) (month : ℕ) (st : SimState)
    (payment pc : ℚ) :
    (monthStep rcs month st payment pc).first_month_payment =
      (if month = 1 then payment else st.first_month_payment) := rfl
/-- If the loop aborts with an overflow, the reported balance is the (then
positive) `current_principal` at the abort point. -/
theorem loanLoop_overflow_pos (rt : RepaymentType) (principal : ℚ) (nTotal : ℕ)
    (rcs : List RateChange) :
    ∀ (fuel month : ℕ) (st : SimState) (b : ℚ) (ers : List EarlyRepayment),
      loanLoop rt principal nTotal rcs month fuel st = .overflow b ers → 0 < b := by
  intro fuel
  induction fuel with
  | zero =>
    intro month st b ers h
    simp [loanLoop] at h
  | succ fuel ih =>
    intro month st b ers h
    by_cases hcp : st.current_principal ≤ 0
    · simp [loanLoop, if_pos hcp] at h
    · cases hE : computePayment rt principal nTotal st.payments_made st.current_principal
          (applyRateChanges month rcs st.current_annual_rate st.current_monthly_rate).2 with
      | none =>
        simp only [loanLoop, if_neg hcp, hE] at h
        injection h with hb hers
        rw [← hb]
        exact not_le.mp hcp
      | some p =>
        obtain ⟨payment, pc⟩ := p
        simp only [loanLoop, if_neg hcp, hE] at h
        exact ih (month + 1) (monthStep rcs month st payment pc) b ers h

/-- C1.  The claim says `calculate_loan` is pure and leaves its input lists
unchanged.  The code, however, writes `amount = 0` into the early-repayment
dicts it applies (src/app.py line 245), and those dicts are shared with the
caller's list through `sorted(...)`.  Concretely: with a single early
repayment of 100 at month 1 (a 1-year, rate-0 loan of 1200), the entry ends
the call as `(month 1, amount 0)`, and a second call receiving that mutated
list returns a different result than the first call did. -/
theorem calculate_loan_impure_counterexample :
    calculate_loan_ers ⟨1200, 0, 1, .equalPayment, 0, [⟨1, 100⟩], []⟩ = [⟨1, 0⟩] ∧
    (⟨1200, 0, 1, .equalPayment, 0, [⟨1, 100⟩], []⟩ : LoanConfig).early_repayments =
      [⟨1, 100⟩] ∧
    calculate_loan ⟨1200, 0, 1, .equalPayment, 0, [⟨1, 0⟩], []⟩ ≠
      calculate_loan ⟨1200, 0, 1, .equalPayment, 0, [⟨1, 100⟩], []⟩ := by
  refine ⟨?_, rfl, ?_⟩
  · norm_num [calculate_loan_ers, calcLoanFull, calcLoanOut, initState, sortedEarlyRepayments,
      sortedRateChanges, loanLoop, monthStep, computePayment, applyEarlyRepayments,
      applyRateChanges, addAnnual, zerosFrom, padHistory, floatMax]
  · norm_num [calculate_loan, calcLoanFull, calcLoanOut, initState, sortedEarlyRepayments,
      sortedRateChanges, loanLoop, monthStep, computePayment, applyEarlyRepayments,
      applyRateChanges, addAnnual, zerosFrom, padHistory, floatMax]

/-- C1 (amended).  `calculate_loan` is deterministic as a function of the
input values, and the only thing it changes in its inputs is the in-place
consumption of early repayments: every early-repayment entry keeps its month,
and its amount is either untouched or zeroed (exactly when the loop applied
it); rate-change entries are never written.  Two successive calls agree
whenever no early repayment was consumed in between. -/
theorem calculate_loan_consumes_only_amounts (cfg : LoanConfig) :
    List.Forall₂ erRel (sortedEarlyRepayments cfg) (calculate_loan_ers cfg) := by
  have key : List.Forall₂ erRel (sortedEarlyRepayments cfg) (ersOut (calcLoanOut cfg)) :=
    loanLoop_ers cfg.repayment_type (cfg.loan_amount - cfg.down_payment)
      (cfg.loan_term_years * 12) (sortedRateChanges cfg) (cfg.loan_term_years * 12) 1
      (initState cfg)
  simp only [calculate_loan_ers, calcLoanFull]
  by_cases h : cfg.loan_amount - cfg.down_payment ≤ 0
  · simp only [if_pos h]
    exact forall₂_erRel_refl _
  · simp only [if_neg h]
    cases hout : calcLoanOut cfg with
    | ok st =>
      rw [hout] at key
      exact key
    | overflow b ers =>
      rw [hout] at key
      exact key

/-- C3.  When the annuity exponentiation overflows, `calculate_loan` does not
propagate the exception: the model is a total function whose overflow branch
(src/app.py lines 205-207) reports the error (`overflow_error = true`,
modelling the `st.error` message) and returns the zero/partial tuple — zero
first payment, zero total paid, empty balance and annual traces, and as
`final_balance` the still-positive principal at the point of abort. -/
theorem calculate_loan_overflow_shape (cfg : LoanConfig)
    (h : (calculate_loan cfg).overflow_error = true) :
    (calculate_loan cfg).first_month_payment = 0 ∧
    (calculate_loan cfg).total_payment = 0 ∧
    (calculate_loan cfg).balance_history = [] ∧
    (calculate_loan cfg).annual_payments = [] ∧
    0 < (calculate_loan cfg).final_balance := by
  by_cases hp : cfg.loan_amount - cfg.down_payment ≤ 0
  · rw [calculate_loan, calcLoanFull] at h
    simp only [if_pos hp] at h
    cases h
  · rw [calculate_loan, calcLoanFull] at h ⊢
    simp only [if_neg hp] at h ⊢
    cases hout : calcLoanOut cfg with
    | ok st =>
      rw [hout] at h
      exact Bool.noConfusion h
    | overflow b ers =>
      refine ⟨rfl, rfl, rfl, rfl, ?_⟩
      exact loanLoop_overflow_pos cfg.repayment_type (cfg.loan_amount - cfg.down_payment)
        (cfg.loan_term_years * 12) (sortedRateChanges cfg) (cfg.loan_term_years * 12) 1
        (initState cfg) b ers hout
/-- Witness for C3: a configuration whose annuity exponentiation overflows in
month 1 (monthly rate `2 ^ 86`, so `(1 + 2 ^ 86) ^ 12 > 2 ^ 1024`). -/
theorem calculate_loan_overflow_shape_witness :
    (calculate_loan ⟨1200, 1200 * 2 ^ 86, 1, .equalPayment, 0, [], []⟩).overflow_error = true ∧
    ((calculate_loan ⟨1200, 1200 * 2 ^ 86, 1, .equalPayment, 0, [], []⟩).first_month_payment = 0 ∧
     (calculate_loan ⟨1200, 1200 * 2 ^ 86, 1, .equalPayment, 0, [], []⟩).total_payment = 0 ∧
     (calculate_loan ⟨1200, 1200 * 2 ^ 86, 1, .equalPayment, 0, [], []⟩).balance_history = [] ∧
     (calculate_loan ⟨1200, 1200 * 2 ^ 86, 1, .equalPayment, 0, [], []⟩).annual_payments = [] ∧
     0 < (calculate_loan ⟨1200, 1200 * 2 ^ 86, 1, .equalPayment, 0, [], []⟩).final_balance) := by
  have hflag :
      (calculate_loan ⟨1200, 1200 * 2 ^ 86, 1, .equalPayment, 0, [], []⟩).overflow_error
        = true := by
    norm_num [calculate_loan, calcLoanFull, calcLoanOut, initState, sortedEarlyRepayments,
      sortedRateChanges, loanLoop, monthStep, computePayment, applyEarlyRepayments,
      applyRateChanges, addAnnual, zerosFrom, padHistory, floatMax]
  exact ⟨hflag, calculate_loan_overflow_shape _ hflag⟩

theorem calcLoan_zero_of_nonpos (cfg : LoanConfig)
    (h : cfg.loan_amount - cfg.down_payment ≤ 0) :
    calculate_loan cfg = ⟨0, 0, 0, [], [], false⟩ := by
  simp [calculate_loan, calcLoanFull, h]

/-- C4.  When the down payment swallows the whole principal
(`loan_amount - down_payment ≤ 0`), `calculate_loan` returns the zero result
`(0, 0, 0, [], [])` with no error reported (src/app.py lines 144-146). -/
theorem calculate_loan_zero_when_no_principal (cfg : LoanConfig)
    (h : cfg.loan_amount - cfg.down_payment ≤ 0) :
    calculate_loan cfg = ⟨0, 0, 0, [], [], false⟩ :=
  calcLoan_zero_of_nonpos cfg h

/-- Witness for C4: down payment equal to the loan amount. -/
theorem calculate_loan_zero_when_no_principal_witness :
    ((⟨100, 5, 35, .equalPayment, 100, [], []⟩ : LoanConfig).loan_amount -
      (⟨100, 5, 35, .equalPayment, 100, [], []⟩ : LoanConfig).down_payment ≤ 0) ∧
    calculate_loan ⟨100, 5, 35, .equalPayment, 100, [], []⟩ = ⟨0, 0, 0, [], [], false⟩ := by
  have h : (⟨100, 5, 35, .equalPayment, 100, [], []⟩ : LoanConfig).loan_amount -
      (⟨100, 5, 35, .equalPayment, 100, [], []⟩ : LoanConfig).down_payment ≤ 0 := by
    norm_num
  exact ⟨h, calculate_loan_zero_when_no_principal _ h⟩

/-! ### Length of the recorded balance trace -/

theorem padHistory_length (h : List (ℕ × ℚ)) (nTotal : ℕ) (hle : h.length ≤ nTotal) :
    (padHistory h nTotal).length = nTotal := by
  simp only [padHistory, List.length_append, List.length_map, List.length_range']
  omega

theorem loanLoop_ok_length (rt : RepaymentType) (principal : ℚ) (nTotal : ℕ)
    (rcs : List RateChange) :
    ∀ (fuel month : ℕ) (st st' : SimState),
      month + fuel = nTotal + 1 →
      st.balance_history.length + 1 = month →
      loanLoop rt principal nTotal rcs month fuel st = .ok st' →
      st'.balance_history.length = nTotal := by
  intro fuel
  induction fuel with
  | zero =>
    intro month st st' hm hl h
    rw [loanLoop] at h
    injection h with h
    rw [← h]
    omega
  | succ fuel ih =>
    intro month st st' hm hl h
    by_cases hcp : st.current_principal ≤ 0
    · simp only [loanLoop, if_pos hcp] at h
      injection h with h
      rw [← h]
      simp only [List.length_append, zerosFrom, List.length_map, List.length_range']
      omega
    · cases hE : computePayment rt principal nTotal st.payments_made st.current_principal
          (applyRateChanges month rcs st.current_annual_rate st.current_monthly_rate).2 with
      | none =>
        simp only [loanLoop, if_neg hcp, hE] at h
        exact LoopOut.noConfusion h
      | some p =>
        obtain ⟨payment, pc⟩ := p
        simp only [loanLoop, if_neg hcp, hE] at h
        refine ih (month + 1) (monthStep rcs month st payment pc) st' (by omega) ?_ h
        simp only [monthStep_balance_history, List.length_append, List.length_singleton]
        omega

/-- C2.  The claim asserts a trace of exactly `term_years × 12` entries for
every configuration with a positive principal; but a configuration whose
annuity exponentiation overflows returns empty traces, so the trace has 0
entries against a 12-month term. -/
theorem calculate_loan_trace_empty_on_overflow :
    0 < (⟨1200, 1200 * 2 ^ 90, 1, .equalPayment, 0, [], []⟩ : LoanConfig).loan_amount -
        (⟨1200, 1200 * 2 ^ 90, 1, .equalPayment, 0, [], []⟩ : LoanConfig).down_payment ∧
    (⟨1200, 1200 * 2 ^ 90, 1, .equalPayment, 0, [], []⟩ : LoanConfig).loan_term_years * 12
        = 12 ∧
    (calculate_loan ⟨1200, 1200 * 2 ^ 90, 1, .equalPayment, 0, [], []⟩).balance_history.length
        = 0 := by
  refine ⟨by norm_num, by norm_num, ?_⟩
  norm_num [calculate_loan, calcLoanFull, calcLoanOut, initState, sortedEarlyRepayments,
    sortedRateChanges, loanLoop, monthStep, computePayment, applyEarlyRepayments,
    applyRateChanges, addAnnual, zerosFrom, padHistory, floatMax]

/-- C2 (amended).  For every configuration with a positive principal whose
simulation does not abort with the overflow error, the recorded balance trace
has exactly `loan_term_years * 12` entries, regardless of early payoff
(months after payoff are padded with balance 0 at src/app.py lines 177-182
and 253-255). -/
theorem calculate_loan_trace_length (cfg : LoanConfig)
    (hp : 0 < cfg.loan_amount - cfg.down_payment)
    (hof : (calculate_loan cfg).overflow_error = false) :
    (calculate_loan cfg).balance_history.length = cfg.loan_term_years * 12 := by
  have hple : ¬ cfg.loan_amount - cfg.down_payment ≤ 0 := not_le.mpr hp
  rw [calculate_loan, calcLoanFull] at hof ⊢
  simp only [if_neg hple] at hof ⊢
  cases hout : calcLoanOut cfg with
  | overflow b ers =>
    rw [hout] at hof
    exact Bool.noConfusion hof
  | ok st =>
    show (padHistory st.balance_history (cfg.loan_term_years * 12)).length
        = cfg.loan_term_years * 12
    have hlen := loanLoop_ok_length cfg.repayment_type (cfg.loan_amount - cfg.down_payment)
      (cfg.loan_term_years * 12) (sortedRateChanges cfg) (cfg.loan_term_years * 12) 1
      (initState cfg) st (by omega) (by rfl) hout
    exact padHistory_length _ _ (le_of_eq hlen)

/-- Witness for the amended C2 at a 1-year, rate-0 configuration. -/
theorem calculate_loan_trace_length_witness :
    0 < (⟨1200, 0, 1, .equalPayment, 0, [], []⟩ : LoanConfig).loan_amount -
        (⟨1200, 0, 1, .equalPayment, 0, [], []⟩ : LoanConfig).down_payment ∧
    (calculate_loan ⟨1200, 0, 1, .equalPayment, 0, [], []⟩).overflow_error = false ∧
    (calculate_loan ⟨1200, 0, 1, .equalPayment, 0, [], []⟩).balance_history.length
        = (⟨1200, 0, 1, .equalPayment, 0, [], []⟩ : LoanConfig).loan_term_years * 12 := by
  have h1 : 0 < (⟨1200, 0, 1, .equalPayment, 0, [], []⟩ : LoanConfig).loan_amount -
      (⟨1200, 0, 1, .equalPayment, 0, [], []⟩ : LoanConfig).down_payment := by norm_num
  have h2 : (calculate_loan ⟨1200, 0, 1, .equalPayment, 0, [], []⟩).overflow_error = false := by
    norm_num [calculate_loan, calcLoanFull, calcLoanOut, initState, sortedEarlyRepayments,
      sortedRateChanges, loanLoop, monthStep, computePayment, applyEarlyRepayments,
      applyRateChanges, addAnnual, zerosFrom, padHistory, floatMax]
  exact ⟨h1, h2, calculate_loan_trace_length _ h1 h2⟩

/-- C7.  Under 元金均等返済 (EQUAL_PRINCIPAL), the principal component of
every month's payment is the constant `(loan_amount - down_payment) /
(loan_term_years * 12)` — computed from the original principal and term and
depending neither on the month, nor on `payments_made`, nor on the current
balance or rate (hence never recomputed after rate changes or extra
payments) — except that it is clamped down to the remaining balance when it
would overshoot it; and the month's payment is that principal component plus
`current_principal * current_monthly_rate` (src/app.py lines 218-229). -/
theorem computePayment_equal_principal (cfg : LoanConfig) (cp mr : ℚ) (pm : ℕ) :
    computePayment .equalPrincipal (cfg.loan_amount - cfg.down_payment)
        (cfg.loan_term_years * 12) pm cp mr =
      some
        ((if (cfg.loan_amount - cfg.down_payment) / ((cfg.loan_term_years * 12 : ℕ) : ℚ) > cp
            then cp
            else (cfg.loan_amount - cfg.down_payment) / ((cfg.loan_term_years * 12 : ℕ) : ℚ))
          + cp * mr,
         if (cfg.loan_amount - cfg.down_payment) / ((cfg.loan_term_years * 12 : ℕ) : ℚ) > cp
            then cp
            else (cfg.loan_amount - cfg.down_payment) / ((cfg.loan_term_years * 12 : ℕ) : ℚ)) := by
  by_cases h : (cfg.loan_amount - cfg.down_payment) / ((cfg.loan_term_years * 12 : ℕ) : ℚ) > cp
  · simp only [computePayment, if_pos h]
  · simp only [computePayment, if_neg h]

/-! ### Rate changes take effect at their own month -/

theorem applyRateChanges_single (m : ℕ) (nr ar mr : ℚ) :
    applyRateChanges m [⟨m, nr⟩] ar mr = (nr, nr / 100 / 12) := by
  simp [applyRateChanges]

theorem applyRateChanges_nil (m : ℕ) (ar mr : ℚ) :
    applyRateChanges m [] ar mr = (ar, mr) := rfl

/-- Once the loop is past month 1, a rate-change list whose only entry
targets month 1 behaves like the empty list. -/
theorem loanLoop_rcs_month_one_inactive (rt : RepaymentType) (principal : ℚ) (nTotal : ℕ)
    (nr : ℚ) :
    ∀ (fuel month : ℕ) (st : SimState), 2 ≤ month →
      loanLoop rt principal nTotal [⟨1, nr⟩] month fuel st =
        loanLoop rt principal nTotal [] month fuel st := by
  intro fuel
  induction fuel with
  | zero => intro month st hm; rfl
  | succ fuel ih =>
    intro month st hm
    have hne : ¬ month = 1 := by omega
    have hrc : applyRateChanges month [⟨1, nr⟩] st.current_annual_rate st.current_monthly_rate
        = (st.current_annual_rate, st.current_monthly_rate) := by
      simp [applyRateChanges, hne]
    have hstep : ∀ payment pc : ℚ,
        monthStep [⟨1, nr⟩] month st payment pc = monthStep [] month st payment pc := by
      intro payment pc
      simp [monthStep, applyRateChanges, hne]
    by_cases hcp : st.current_principal ≤ 0
    · simp only [loanLoop, if_pos hcp]
    · simp only [loanLoop, if_neg hcp, hrc, applyRateChanges_nil]
      cases hE : computePayment rt principal nTotal st.payments_made st.current_principal
          st.current_monthly_rate with
      | none => rfl
      | some p =>
        obtain ⟨payment, pc⟩ := p
        show loanLoop rt principal nTotal [⟨1, nr⟩] (month + 1) fuel
            (monthStep [⟨1, nr⟩] month st payment pc) =
          loanLoop rt principal nTotal [] (month + 1) fuel
            (monthStep [] month st payment pc)
        rw [hstep payment pc]
        exact ih (month + 1) (monthStep [] month st payment pc) (by omega)

/-- A simulation that starts with the single rate change `(1, nr)` runs
exactly like one that starts at rate `nr` with no rate changes. -/
theorem loanLoop_rc1_eq_init (rt : RepaymentType) (p : ℚ) (n : ℕ) (nr ar : ℚ)
    (ers : List EarlyRepayment) (hp : ¬ p ≤ 0) :
    loanLoop rt p (n + 1) [⟨1, nr⟩] 1 (n + 1) ⟨p, 0, 0, 0, [], [], ar, ar / 100 / 12, ers⟩ =
      loanLoop rt p (n + 1) [] 1 (n + 1) ⟨p, 0, 0, 0, [], [], nr, nr / 100 / 12, ers⟩ := by
  rw [loanLoop, loanLoop]
  dsimp only
  rw [if_neg hp, if_neg hp, applyRateChanges_single, applyRateChanges_nil]
  dsimp only
  cases hE : computePayment rt p (n + 1) 0 p (nr / 100 / 12) with
  | none => rfl
  | some q =>
    obtain ⟨payment, pc⟩ := q
    show loanLoop rt p (n + 1) [⟨1, nr⟩] 2 n
        (monthStep [⟨1, nr⟩] 1 ⟨p, 0, 0, 0, [], [], ar, ar / 100 / 12, ers⟩ payment pc) =
      loanLoop rt p (n + 1) [] 2 n
        (monthStep [] 1 ⟨p, 0, 0, 0, [], [], nr, nr / 100 / 12, ers⟩ payment pc)
    have hms : monthStep [⟨1, nr⟩] 1 ⟨p, 0, 0, 0, [], [], ar, ar / 100 / 12, ers⟩ payment pc =
        monthStep [] 1 ⟨p, 0, 0, 0, [], [], nr, nr / 100 / 12, ers⟩ payment pc := by
      simp [monthStep, applyRateChanges]
    rw [hms]
    exact loanLoop_rcs_month_one_inactive rt p (n + 1) nr n 2 _ (by omega)

/-- C6.  A rate change takes effect at the very month it targets: the rate
scan at a month `m` carrying the single change `(m, nr)` installs exactly
`nr / 100 / 12` as the monthly rate used by that month's interest and
payment computation (the loop reads the scan's output, src/app.py lines
184-188 and 209-222); in particular a change at month 1 makes the whole
simulation identical to one that starts at the new rate with no changes. -/
theorem calculate_loan_rate_change_effective_at_month :
    (∀ (m : ℕ) (nr ar mr : ℚ),
        applyRateChanges m [⟨m, nr⟩] ar mr = (nr, nr / 100 / 12)) ∧
    (∀ (cfg : LoanConfig) (nr : ℚ),
        calculate_loan { cfg with rate_changes := [⟨1, nr⟩] } =
          calculate_loan { cfg with annual_interest_rate := nr, rate_changes := [] }) := by
  refine ⟨applyRateChanges_single, ?_⟩
  intro cfg nr
  by_cases hp : cfg.loan_amount - cfg.down_payment ≤ 0
  · exact (calcLoan_zero_of_nonpos { cfg with rate_changes := [⟨1, nr⟩] } hp).trans
      (calcLoan_zero_of_nonpos { cfg with annual_interest_rate := nr, rate_changes := [] }
        hp).symm
  · rcases hN : cfg.loan_term_years * 12 with _ | n
    · rw [calculate_loan, calculate_loan, calcLoanFull, calcLoanFull]
      simp only [calcLoanOut, initState, sortedRateChanges, sortedEarlyRepayments, hN,
        if_neg hp, loanLoop, padHistory]
    · have hsrc1 : sortedRateChanges { cfg with rate_changes := [⟨1, nr⟩] } = [⟨1, nr⟩] := by
        simp [sortedRateChanges]
      have hsrc2 :
          sortedRateChanges { cfg with annual_interest_rate := nr, rate_changes := [] } = [] := by
        simp [sortedRateChanges]
      have hout : calcLoanOut { cfg with rate_changes := [⟨1, nr⟩] } =
          calcLoanOut { cfg with annual_interest_rate := nr, rate_changes := [] } := by
        rw [calcLoanOut, calcLoanOut, hsrc1, hsrc2]
        dsimp only
        rw [hN]
        exact loanLoop_rc1_eq_init cfg.repayment_type (cfg.loan_amount - cfg.down_payment) n
          nr cfg.annual_interest_rate (sortedEarlyRepayments cfg) hp
      rw [calculate_loan, calculate_loan, calcLoanFull, calcLoanFull]
      dsimp only
      simp only [if_neg hp]
      rw [hout]

/-! ### Extra-payment application semantics -/

theorem applyEarlyRepayments_single_hit (m : ℕ) (cp a : ℚ) (ha : 0 < a) :
    applyEarlyRepayments m cp [⟨m, a⟩] = (cp - a, [⟨m, 0⟩]) := by
  by_cases h2 : cp - a ≤ 0
  · simp [applyEarlyRepayments, ha, h2]
  · simp [applyEarlyRepayments, ha, h2]

theorem applyEarlyRepayments_single_spent (m : ℕ) (cp : ℚ) :
    applyEarlyRepayments m cp [⟨m, 0⟩] = (cp, [⟨m, 0⟩]) := by
  simp [applyEarlyRepayments]

/-- C8.  An extra payment scheduled at month `m` is applied after that
month's scheduled payment has reduced the balance by its principal
component, is subtracted without flooring (the balance may go negative
transiently), is consumed (amount zeroed) so it can be applied at most once,
and the balance recorded for the month is `max 0` of the post-subtraction
balance (src/app.py lines 241-250).  Conjunct 1: the scan subtracts a live
entry in full and zeroes it.  Conjunct 2: an already consumed (amount 0)
entry is never applied again.  Conjunct 3: one iteration of the monthly loop
with a single live entry at the current month ends with balance
`current_principal - pc - a`, records `(m, max 0 (current_principal - pc - a))`
— the extra payment coming after the subtraction of the principal component
`pc` — , adds the scheduled payment to the total and consumes the entry. -/
theorem calculate_loan_extra_payment_semantics :
    (∀ (m : ℕ) (cp a : ℚ), 0 < a →
        applyEarlyRepayments m cp [⟨m, a⟩] = (cp - a, [⟨m, 0⟩])) ∧
    (∀ (m : ℕ) (cp : ℚ), applyEarlyRepayments m cp [⟨m, 0⟩] = (cp, [⟨m, 0⟩])) ∧
    (∀ (rt : RepaymentType) (p : ℚ) (N : ℕ) (st : SimState) (m : ℕ) (a payment pc : ℚ),
        0 < a → ¬ st.current_principal ≤ 0 → st.early_repayments = [⟨m, a⟩] →
        computePayment rt p N st.payments_made st.current_principal
            st.current_monthly_rate = some (payment, pc) →
        ∃ st', loanLoop rt p N [] m 1 st = .ok st' ∧
          st'.current_principal = st.current_principal - pc - a ∧
          st'.balance_history = st.balance_history ++
            [(m, max 0 (st.current_principal - pc - a))] ∧
          st'.total_payment = st.total_payment + payment ∧
          st'.early_repayments = [⟨m, 0⟩]) := by
  refine ⟨applyEarlyRepayments_single_hit, applyEarlyRepayments_single_spent, ?_⟩
  intro rt p N st m a payment pc ha hcp hers hE
  refine ⟨monthStep [] m st payment pc, ?_, ?_, ?_, rfl, ?_⟩
  · show loanLoop rt p N [] m (0 + 1) st = .ok (monthStep [] m st payment pc)
    rw [loanLoop, if_neg hcp]
    have hscrut : computePayment rt p N st.payments_made st.current_principal
        (applyRateChanges m [] st.current_annual_rate st.current_monthly_rate).2
        = some (payment, pc) := hE
    rw [hscrut]
    rfl
  · rw [monthStep_current_principal, hers,
      applyEarlyRepayments_single_hit m (st.current_principal - pc) a ha]
  · rw [monthStep_balance_history, hers,
      applyEarlyRepayments_single_hit m (st.current_principal - pc) a ha]
  · rw [monthStep_early_repayments, hers,
      applyEarlyRepayments_single_hit m (st.current_principal - pc) a ha]

/-- Witness for C8: equal-principal loan of 1200 over 12 months at rate 0,
balance 100 at the month of the extra payment 30; the scheduled payment
clamps to 100, the extra payment then drives the balance to -30, recorded
as 0. -/
theorem calculate_loan_extra_payment_semantics_witness :
    (0 : ℚ) < 9 ∧
    applyEarlyRepayments 1 5 [⟨1, 9⟩] = (5 - 9, [⟨1, 0⟩]) ∧
    applyEarlyRepayments 1 5 [⟨1, 0⟩] = (5, [⟨1, 0⟩]) ∧
    (∃ st', loanLoop .equalPrincipal 1200 12 [] 1 1
        ⟨100, 0, 0, 0, [], [], 0, 0, [⟨1, 30⟩]⟩ = .ok st' ∧
      st'.current_principal = 100 - 100 - 30 ∧
      st'.balance_history = [] ++ [(1, max 0 ((100 : ℚ) - 100 - 30))] ∧
      st'.total_payment = 0 + 100 ∧
      st'.early_repayments = [⟨1, 0⟩]) := by
  refine ⟨by norm_num, calculate_loan_extra_payment_semantics.1 1 5 9 (by norm_num),
    calculate_loan_extra_payment_semantics.2.1 1 5, ?_⟩
  exact calculate_loan_extra_payment_semantics.2.2 .equalPrincipal 1200 12
    ⟨100, 0, 0, 0, [], [], 0, 0, [⟨1, 30⟩]⟩ 1 30 100 100 (by norm_num) (by norm_num) rfl
    (by norm_num [computePayment])

/-! ### The recorded balance trace is non-negative and non-increasing -/

/-- Bounds on the clamped principal component shared by all three
equal-payment branches (src/app.py lines 209-216). -/
theorem clamp_pair_bounds (cp interest payment pay pc : ℚ) (hcp : 0 < cp)
    (h : (if (if payment - interest < 0 then (0 : ℚ) else payment - interest) > cp
          then some (cp + interest, cp)
          else some (payment, if payment - interest < 0 then (0 : ℚ) else payment - interest))
        = some (pay, pc)) :
    0 ≤ pc ∧ pc ≤ cp := by
  by_cases h1 : (if payment - interest < 0 then (0 : ℚ) else payment - interest) > cp
  · rw [if_pos h1] at h
    simp only [Option.some.injEq, Prod.mk.injEq] at h
    rw [← h.2]
    exact ⟨hcp.le, le_refl cp⟩
  · rw [if_neg h1] at h
    simp only [Option.some.injEq, Prod.mk.injEq] at h
    obtain ⟨hpay, hpc⟩ := h
    have h5 : (if payment - interest < 0 then (0 : ℚ) else payment - interest) ≤ cp :=
      not_lt.mp h1
    by_cases h4 : payment - interest < 0
    · rw [if_pos h4] at hpc
      rw [← hpc]
      exact ⟨le_refl 0, hcp.le⟩
    · rw [if_neg h4] at hpc h5
      rw [← hpc]
      exact ⟨not_lt.mp h4, h5⟩

/-- After the clamping at src/app.py lines 212-216 / 227-229, the principal
component is between `0` and the current balance. -/
theorem computePayment_pc_bounds (rt : RepaymentType) (principal : ℚ) (nTotal pm : ℕ)
    (cp mr pay pc : ℚ) (hp : 0 ≤ principal) (hcp : 0 < cp)
    (h : computePayment rt principal nTotal pm cp mr = some (pay, pc)) :
    0 ≤ pc ∧ pc ≤ cp := by
  cases rt with
  | equalPayment =>
    simp only [computePayment] at h
    split at h
    · exact clamp_pair_bounds cp (cp * mr) cp pay pc hcp h
    · split at h
      · exact clamp_pair_bounds cp (cp * mr) (cp / ((nTotal - pm : ℕ) : ℚ)) pay pc hcp h
      · split at h
        · exact Option.noConfusion h
        · exact clamp_pair_bounds cp (cp * mr) _ pay pc hcp h
  | equalPrincipal =>
    simp only [computePayment] at h
    split at h
    · simp only [Option.some.injEq, Prod.mk.injEq] at h
      rw [← h.2]
      exact ⟨hcp.le, le_refl cp⟩
    · simp only [Option.some.injEq, Prod.mk.injEq] at h
      rw [← h.2]
      rename_i hgt
      exact ⟨div_nonneg hp (Nat.cast_nonneg _), not_lt.mp hgt⟩

/-- Invariant carried along the loop: the recorded balances decrease, are
non-negative, and dominate the clamped current balance. -/
def TraceInv (cp : ℚ) (h : List (ℕ × ℚ)) : Prop :=
  List.Chain' (fun a b => b.2 ≤ a.2) h ∧ ∀ e ∈ h, 0 ≤ e.2 ∧ max 0 cp ≤ e.2

theorem traceInv_nil (cp : ℚ) : TraceInv cp [] :=
  ⟨List.chain'_nil, by simp⟩

theorem chain'_of_all_zero :
    ∀ (z : List (ℕ × ℚ)), (∀ e ∈ z, e.2 = 0) →
      List.Chain' (fun a b => b.2 ≤ a.2) z
  | [], _ => List.chain'_nil
  | [x], _ => List.chain'_singleton x
  | x :: y :: t, hz => by
    refine List.Chain'.cons ?_ (chain'_of_all_zero (y :: t) ?_)
    · rw [hz x (by simp), hz y (by simp)]
    · intro e he
      exact hz e (List.mem_cons_of_mem x he)

/-- Appending zero-balance records preserves the chain and non-negativity. -/
theorem chain_nonneg_append_zeros (h z : List (ℕ × ℚ))
    (hc : List.Chain' (fun a b => b.2 ≤ a.2) h) (hn : ∀ e ∈ h, 0 ≤ e.2)
    (hz : ∀ e ∈ z, e.2 = 0) :
    List.Chain' (fun a b => b.2 ≤ a.2) (h ++ z) ∧ ∀ e ∈ h ++ z, 0 ≤ e.2 := by
  constructor
  · rw [List.chain'_append]
    refine ⟨hc, chain'_of_all_zero z hz, ?_⟩
    intro x hx y hy
    rw [hz y (List.mem_of_mem_head? hy)]
    exact hn x (List.mem_of_getLast?_eq_some hx)
  · intro e he
    rcases List.mem_append.mp he with h1 | h1
    · exact hn e h1
    · rw [hz e h1]

/-- Recording `(m, max 0 cp')` for a smaller balance `cp' ≤ cp` keeps the
invariant. -/
theorem traceInv_record (cp cp' : ℚ) (h : List (ℕ × ℚ)) (m : ℕ)
    (hi : TraceInv cp h) (hle : cp' ≤ cp) :
    TraceInv cp' (h ++ [(m, max 0 cp')]) := by
  obtain ⟨hc, hall⟩ := hi
  have hmax : max 0 cp' ≤ max 0 cp := max_le_max (le_refl 0) hle
  constructor
  · rw [List.chain'_append]
    refine ⟨hc, List.chain'_singleton _, ?_⟩
    intro x hx y hy
    simp only [List.head?_cons, Option.mem_def, Option.some.injEq] at hy
    rw [← hy]
    exact le_trans hmax (hall x (List.mem_of_getLast?_eq_some hx)).2
  · intro e he
    rcases List.mem_append.mp he with h1 | h1
    · obtain ⟨he0, hec⟩ := hall e h1
      exact ⟨he0, le_trans hmax hec⟩
    · simp only [List.mem_singleton] at h1
      rw [h1]
      exact ⟨le_max_left 0 cp', le_refl _⟩

theorem zerosFrom_all_zero (m nTotal : ℕ) : ∀ e ∈ zerosFrom m nTotal, e.2 = 0 := by
  intro e he
  obtain ⟨k, _, rfl⟩ := List.mem_map.mp he
  rfl

/-- The loop keeps the recorded trace non-increasing and non-negative. -/
theorem loanLoop_trace (rt : RepaymentType) (principal : ℚ) (nTotal : ℕ)
    (rcs : List RateChange) (hp : 0 ≤ principal) :
    ∀ (fuel month : ℕ) (st st' : SimState),
      TraceInv st.current_principal st.balance_history →
      loanLoop rt principal nTotal rcs month fuel st = .ok st' →
      List.Chain' (fun a b => b.2 ≤ a.2) st'.balance_history ∧
        ∀ e ∈ st'.balance_history, 0 ≤ e.2 := by
  intro fuel
  induction fuel with
  | zero =>
    intro month st st' hi h
    rw [loanLoop] at h
    injection h with h
    rw [← h]
    exact ⟨hi.1, fun e he => (hi.2 e he).1⟩
  | succ fuel ih =>
    intro month st st' hi h
    by_cases hcp : st.current_principal ≤ 0
    · simp only [loanLoop, if_pos hcp] at h
      injection h with h
      rw [← h]
      exact chain_nonneg_append_zeros st.balance_history (zerosFrom month nTotal) hi.1
        (fun e he => (hi.2 e he).1) (zerosFrom_all_zero month nTotal)
    · cases hE : computePayment rt principal nTotal st.payments_made st.current_principal
          (applyRateChanges month rcs st.current_annual_rate st.current_monthly_rate).2 with
      | none =>
        simp only [loanLoop, if_neg hcp, hE] at h
        exact LoopOut.noConfusion h
      | some p =>
        obtain ⟨payment, pc⟩ := p
        simp only [loanLoop, if_neg hcp, hE] at h
        refine ih (month + 1) (monthStep rcs month st payment pc) st' ?_ h
        rw [monthStep_current_principal, monthStep_balance_history]
        have hbounds := computePayment_pc_bounds rt principal nTotal st.payments_made
          st.current_principal
          (applyRateChanges month rcs st.current_annual_rate st.current_monthly_rate).2
          payment pc hp (not_le.mp hcp) hE
        have hend := applyEarlyRepayments_fst_le month st.early_repayments
          (st.current_principal - pc)
        have hle2 : (applyEarlyRepayments month (st.current_principal - pc)
            st.early_repayments).1 ≤ st.current_principal := by
          linarith [hbounds.1]
        exact traceInv_record st.current_principal _ st.balance_history month hi hle2

/-- C5.  For every configuration, the recorded `balance_history` is
monotonically non-increasing across months — in particular rate-change and
extra-payment events never increase a recorded balance — and no recorded
balance is negative (balances are recorded as `max(0, ·)`,
src/app.py line 250). -/
theorem calculate_loan_trace_monotone (cfg : LoanConfig) :
    List.Chain' (fun a b => b.2 ≤ a.2) (calculate_loan cfg).balance_history ∧
    ∀ e ∈ (calculate_loan cfg).balance_history, 0 ≤ e.2 := by
  rw [calculate_loan, calcLoanFull]
  by_cases hp : cfg.loan_amount - cfg.down_payment ≤ 0
  · simp only [if_pos hp]
    exact ⟨List.chain'_nil, by simp⟩
  · simp only [if_neg hp]
    cases hout : calcLoanOut cfg with
    | overflow b ers =>
      exact ⟨List.chain'_nil, by simp⟩
    | ok st =>
      have hpair := loanLoop_trace cfg.repayment_type (cfg.loan_amount - cfg.down_payment)
        (cfg.loan_term_years * 12) (sortedRateChanges cfg) (not_le.mp hp).le
        (cfg.loan_term_years * 12) 1 (initState cfg) st (traceInv_nil _) hout
      show List.Chain' (fun a b => b.2 ≤ a.2)
          (padHistory st.balance_history (cfg.loan_term_years * 12)) ∧
        ∀ e ∈ padHistory st.balance_history (cfg.loan_term_years * 12), 0 ≤ e.2
      rw [padHistory]
      refine chain_nonneg_append_zeros st.balance_history _ hpair.1 hpair.2 ?_
      intro e he
      obtain ⟨k, _, rfl⟩ := List.mem_map.mp he
      rfl

/-! ### Annual payment buckets -/

instance : IsTrans (ℕ × ℚ) (fun a b => a.1 < b.1) :=
  ⟨fun _ _ _ h1 h2 => h1.trans h2⟩

theorem addAnnual_sum (y : ℕ) (p : ℚ) :
    ∀ l : List (ℕ × ℚ),
      ((addAnnual l y p).map Prod.snd).sum = (l.map Prod.snd).sum + p := by
  intro l
  induction l with
  | nil => simp [addAnnual]
  | cons e rest ih =>
    obtain ⟨k, t⟩ := e
    by_cases h : k = y
    · simp only [addAnnual, if_pos h, List.map_cons, List.sum_cons]
      ring
    · simp only [addAnnual, if_neg h, List.map_cons, List.sum_cons, ih]
      ring

theorem addAnnual_keys (y : ℕ) (p : ℚ) :
    ∀ l : List (ℕ × ℚ),
      (addAnnual l y p).map Prod.fst =
        if y ∈ l.map Prod.fst then l.map Prod.fst else l.map Prod.fst ++ [y] := by
  intro l
  induction l with
  | nil => simp [addAnnual]
  | cons e rest ih =>
    obtain ⟨k, t⟩ := e
    by_cases h : k = y
    · subst h
      simp [addAnnual]
    · have h' : ¬ y = k := fun hh => h hh.symm
      by_cases h2 : y ∈ rest.map Prod.fst
      · simp [addAnnual, h, ih, h', h2]
      · simp [addAnnual, h, ih, h', h2]

theorem chain_lt_append_last (K : List ℕ) (y : ℕ)
    (hc : List.Chain' (· < ·) K) (hb : ∀ k ∈ K, k ≤ y) (hy : y ∉ K) :
    List.Chain' (· < ·) (K ++ [y]) := by
  rw [List.chain'_append]
  refine ⟨hc, List.chain'_singleton y, ?_⟩
  intro x hx z hz
  simp only [List.head?_cons, Option.mem_def, Option.some.injEq] at hz
  rw [← hz]
  have hxK : x ∈ K := List.mem_of_getLast?_eq_some hx
  exact lt_of_le_of_ne (hb x hxK) fun he => hy (he ▸ hxK)

/-- Adding a payment to the bucket of the current year preserves the strict
ordering of the year keys and their bounds. -/
theorem addAnnual_chain_bound (l : List (ℕ × ℚ)) (y : ℕ) (p : ℚ)
    (hc : List.Chain' (fun a b => a.1 < b.1) l)
    (hb : ∀ e ∈ l, 1 ≤ e.1 ∧ e.1 ≤ y) (hy1 : 1 ≤ y) :
    List.Chain' (fun a b => a.1 < b.1) (addAnnual l y p) ∧
    ∀ e ∈ addAnnual l y p, 1 ≤ e.1 ∧ e.1 ≤ y := by
  have hcK : List.Chain' (· < ·) (l.map Prod.fst) := by
    rw [List.chain'_map]
    exact hc
  constructor
  · rw [show (fun a b : ℕ × ℚ => a.1 < b.1) = (fun a b : ℕ × ℚ => Prod.fst a < Prod.fst b)
      from rfl]
    rw [← List.chain'_map]
    rw [addAnnual_keys]
    by_cases h2 : y ∈ l.map Prod.fst
    · rw [if_pos h2]
      exact hcK
    · rw [if_neg h2]
      refine chain_lt_append_last _ y hcK ?_ h2
      intro k hk
      obtain ⟨e, he, rfl⟩ := List.mem_map.mp hk
      exact (hb e he).2
  · intro e he
    have hmem : e.1 ∈ (addAnnual l y p).map Prod.fst := List.mem_map_of_mem _ he
    rw [addAnnual_keys] at hmem
    by_cases h2 : y ∈ l.map Prod.fst
    · rw [if_pos h2] at hmem
      obtain ⟨e', he', hfst⟩ := List.mem_map.mp hmem
      exact hfst ▸ hb e' he'
    · rw [if_neg h2] at hmem
      rcases List.mem_append.mp hmem with h3 | h3
      · obtain ⟨e', he', hfst⟩ := List.mem_map.mp h3
        exact hfst ▸ hb e' he'
      · simp only [List.mem_singleton] at h3
        rw [h3]
        exact ⟨hy1, le_refl y⟩

/-- The loop keeps the annual buckets summing to the running total, strictly
ordered by year, with every year between 1 and the year of the last payment
made. -/
theorem loanLoop_annual (rt : RepaymentType) (principal : ℚ) (nTotal : ℕ)
    (rcs : List RateChange) :
    ∀ (fuel month : ℕ) (st st' : SimState),
      st.payments_made + 1 = month →
      ((st.annual_payments.map Prod.snd).sum = st.total_payment) →
      List.Chain' (fun a b => a.1 < b.1) st.annual_payments →
      (∀ e ∈ st.annual_payments, 1 ≤ e.1 ∧ e.1 ≤ (st.payments_made + 11) / 12) →
      loanLoop rt principal nTotal rcs month fuel st = .ok st' →
      ((st'.annual_payments.map Prod.snd).sum = st'.total_payment) ∧
      List.Chain' (fun a b => a.1 < b.1) st'.annual_payments ∧
      (∀ e ∈ st'.annual_payments, 1 ≤ e.1 ∧ e.1 ≤ (st'.payments_made + 11) / 12) := by
  intro fuel
  induction fuel with
  | zero =>
    intro month st st' hm hsum hchain hbound h
    rw [loanLoop] at h
    injection h with h
    rw [← h]
    exact ⟨hsum, hchain, hbound⟩
  | succ fuel ih =>
    intro month st st' hm hsum hchain hbound h
    subst hm
    by_cases hcp : st.current_principal ≤ 0
    · simp only [loanLoop, if_pos hcp] at h
      injection h with h
      rw [← h]
      exact ⟨hsum, hchain, hbound⟩
    · cases hE : computePayment rt principal nTotal st.payments_made st.current_principal
          (applyRateChanges (st.payments_made + 1) rcs st.current_annual_rate
            st.current_monthly_rate).2 with
      | none =>
        simp only [loanLoop, if_neg hcp, hE] at h
        exact LoopOut.noConfusion h
      | some p =>
        obtain ⟨payment, pc⟩ := p
        simp only [loanLoop, if_neg hcp, hE] at h
        have hy1 : 1 ≤ (st.payments_made + 1 + 11) / 12 := by
          rw [Nat.le_div_iff_mul_le (by omega : 0 < 12)]
          omega
        have hb' : ∀ e ∈ st.annual_payments,
            1 ≤ e.1 ∧ e.1 ≤ (st.payments_made + 1 + 11) / 12 := by
          intro e he
          refine ⟨(hbound e he).1, le_trans (hbound e he).2 ?_⟩
          exact Nat.div_le_div_right (by omega)
        have hstep := addAnnual_chain_bound st.annual_payments
          ((st.payments_made + 1 + 11) / 12) payment hchain hb' hy1
        refine ih (st.payments_made + 1 + 1) (monthStep rcs (st.payments_made + 1) st
          payment pc) st' ?_ ?_ ?_ ?_ h
        · rw [monthStep_payments_made]
        · rw [monthStep_annual_payments, monthStep_total_payment, addAnnual_sum, hsum]
        · rw [monthStep_annual_payments]
          exact hstep.1
        · rw [monthStep_annual_payments, monthStep_payments_made]
          exact hstep.2

/-- C9.  The sum of the `annual_payments` buckets equals `total_payment`
(each applied monthly payment is accumulated into exactly one year bucket,
`current_year = ceil(month / 12)`, and skipped post-payoff months contribute
nothing); the returned bucket list is strictly sorted by year (so the final
sort is the identity and no year repeats); and every bucket's year lies
between 1 and the year of the last payment made, so post-payoff years never
appear (src/app.py lines 231-236 and 257-261). -/
theorem calculate_loan_annual_totals (cfg : LoanConfig) :
    ((calculate_loan cfg).annual_payments.map Prod.snd).sum
        = (calculate_loan cfg).total_payment ∧
    List.Chain' (fun a b => a.1 < b.1) (calculate_loan cfg).annual_payments ∧
    ∀ st, calcLoanOut cfg = .ok st →
      ∀ e ∈ st.annual_payments, 1 ≤ e.1 ∧ e.1 ≤ (st.payments_made + 11) / 12 := by
  have h3 : ∀ st, calcLoanOut cfg = .ok st →
      ((st.annual_payments.map Prod.snd).sum = st.total_payment) ∧
      List.Chain' (fun a b => a.1 < b.1) st.annual_payments ∧
      ∀ e ∈ st.annual_payments, 1 ≤ e.1 ∧ e.1 ≤ (st.payments_made + 11) / 12 := by
    intro st hout
    exact loanLoop_annual cfg.repayment_type (cfg.loan_amount - cfg.down_payment)
      (cfg.loan_term_years * 12) (sortedRateChanges cfg) (cfg.loan_term_years * 12) 1
      (initState cfg) st rfl rfl List.chain'_nil (by simp [initState]) hout
  refine ⟨?_, ?_, fun st hout => (h3 st hout).2.2⟩ <;>
  · rw [calculate_loan, calcLoanFull]
    by_cases hp : cfg.loan_amount - cfg.down_payment ≤ 0
    · rw [if_pos hp]
      simp
    · rw [if_neg hp]
      cases hout : calcLoanOut cfg with
      | overflow b ers => simp
      | ok st =>
        have hst := h3 st hout
        have hsorted : List.Sorted (fun a b : ℕ × ℚ => a.1 ≤ b.1) st.annual_payments := by
          have hpw : List.Pairwise (fun a b : ℕ × ℚ => a.1 < b.1) st.annual_payments :=
            List.chain'_iff_pairwise.mp hst.2.1
          exact hpw.imp le_of_lt
        dsimp only
        rw [List.Sorted.insertionSort_eq hsorted]
        first
          | exact hst.1
          | exact hst.2.1

/-- Witness for C9 at a 1-year, rate-0 annuity loan: a single year bucket
`(1, 1200)` within the year of the last (12th) payment. -/
theorem calculate_loan_annual_totals_witness :
    calcLoanOut ⟨1200, 0, 1, .equalPayment, 0, [], []⟩ =
      .ok ⟨0, 1200, 100, 12,
        [(1, 1100), (2, 1000), (3, 900), (4, 800), (5, 700), (6, 600), (7, 500), (8, 400),
          (9, 300), (10, 200), (11, 100), (12, 0)], [(1, 1200)], 0, 0, []⟩ ∧
    ∀ e ∈ (⟨0, 1200, 100, 12,
        [(1, 1100), (2, 1000), (3, 900), (4, 800), (5, 700), (6, 600), (7, 500), (8, 400),
          (9, 300), (10, 200), (11, 100), (12, 0)], [(1, 1200)], 0, 0, []⟩
            : SimState).annual_payments,
      1 ≤ e.1 ∧ e.1 ≤ ((⟨0, 1200, 100, 12,
        [(1, 1100), (2, 1000), (3, 900), (4, 800), (5, 700), (6, 600), (7, 500), (8, 400),
          (9, 300), (10, 200), (11, 100), (12, 0)], [(1, 1200)], 0, 0, []⟩
            : SimState).payments_made + 11) / 12 := by
  have hout : calcLoanOut ⟨1200, 0, 1, .equalPayment, 0, [], []⟩ =
      .ok ⟨0, 1200, 100, 12,
        [(1, 1100), (2, 1000), (3, 900), (4, 800), (5, 700), (6, 600), (7, 500), (8, 400),
          (9, 300), (10, 200), (11, 100), (12, 0)], [(1, 1200)], 0, 0, []⟩ := by
    norm_num [calcLoanOut, initState, sortedEarlyRepayments, sortedRateChanges, loanLoop,
      monthStep, computePayment, applyEarlyRepayments, applyRateChanges, addAnnual,
      zerosFrom, floatMax]
  exact ⟨hout,
    (calculate_loan_annual_totals ⟨1200, 0, 1, .equalPayment, 0, [], []⟩).2.2 _ hout⟩

/-! ### Comparison of two simulations differing by an extra payment (C10) -/

/-- Within the documented rate range, the annuity exponentiation never
reaches the float range edge, so the overflow branch is dead. -/
theorem pow_guard_false (mr : ℚ) (k : ℕ) (hmr : 0 ≤ mr) (hmr2 : mr ≤ 1 / 120)
    (hk : k ≤ 1024) :
    ¬ (floatMax < (1 + mr) ^ k ∨ (1 + mr) ^ k < -floatMax) := by
  have h1 : (1 + mr) ^ k ≤ 2 ^ k := pow_le_pow_left₀ (by linarith) (by linarith) k
  have h2 : (2 : ℚ) ^ k ≤ 2 ^ 1024 := pow_le_pow_right₀ (by norm_num) hk
  have h3 : (0 : ℚ) < (1 + mr) ^ k := pow_pos (by linarith) k
  have h4 : (0 : ℚ) ≤ 2 ^ 1024 := by positivity
  rw [floatMax]
  push_neg
  exact ⟨le_trans h1 h2, by linarith⟩

/-- Closed form of the equal-principal payment branch for arbitrary
principal and term. -/
theorem computePayment_ep_char (p : ℚ) (N pm : ℕ) (cp mr : ℚ) :
    computePayment .equalPrincipal p N pm cp mr =
      some ((if p / (N : ℚ) > cp then cp else p / (N : ℚ)) + cp * mr,
        if p / (N : ℚ) > cp then cp else p / (N : ℚ)) := by
  by_cases h : p / (N : ℚ) > cp
  · simp only [computePayment, if_pos h]
  · simp only [computePayment, if_neg h]

/-- Closed form of the equal-payment branch when the loop is live
(`pm < N`) and the rate is positive and within the documented range: the
payment is the annuity formula, clamped when it would overpay. -/
theorem computePayment_epay_char (p : ℚ) (N pm : ℕ) (cp mr : ℚ)
    (hcp : 0 < cp) (hmr : 0 < mr) (hmr2 : mr ≤ 1 / 120) (hN : N ≤ 1024) (hpm : pm < N) :
    computePayment .equalPayment p N pm cp mr =
      if (1 + mr) ^ (N - pm) - 1 < mr
        then some (cp + cp * mr, cp)
        else some (cp * (mr * (1 + mr) ^ (N - pm)) / ((1 + mr) ^ (N - pm) - 1),
          cp * (mr * (1 + mr) ^ (N - pm)) / ((1 + mr) ^ (N - pm) - 1) - cp * mr) := by
  have hrem : ¬ (N - pm ≤ 0) := by omega
  have hk : N - pm ≤ 1024 := by omega
  have hpow : 1 < (1 + mr) ^ (N - pm) := one_lt_pow₀ (by linarith) (by omega)
  have hD : (0 : ℚ) < (1 + mr) ^ (N - pm) - 1 := by linarith
  have hguard := pow_guard_false mr (N - pm) hmr.le hmr2 hk
  have hDne : ¬ ((1 + mr) ^ (N - pm) - 1 = 0) := ne_of_gt hD
  simp only [computePayment, if_neg hrem, if_neg hmr.ne', if_neg hguard, if_neg hDne]
  have hpc_id : cp * (mr * (1 + mr) ^ (N - pm)) / ((1 + mr) ^ (N - pm) - 1) - cp * mr
      = cp * mr / ((1 + mr) ^ (N - pm) - 1) := by
    field_simp
    ring
  have hpcpos : 0 < cp * mr / ((1 + mr) ^ (N - pm) - 1) :=
    div_pos (mul_pos hcp hmr) hD
  have hno0 : ¬ (cp * (mr * (1 + mr) ^ (N - pm)) / ((1 + mr) ^ (N - pm) - 1) - cp * mr
      < 0) := by
    rw [hpc_id]
    linarith
  rw [if_neg hno0]
  have hclamp_iff :
      (cp * (mr * (1 + mr) ^ (N - pm)) / ((1 + mr) ^ (N - pm) - 1) - cp * mr > cp)
        ↔ ((1 + mr) ^ (N - pm) - 1 < mr) := by
    rw [hpc_id, gt_iff_lt, lt_div_iff₀ hD]
    exact mul_lt_mul_left hcp
  by_cases hcl : (1 + mr) ^ (N - pm) - 1 < mr
  · rw [if_pos (hclamp_iff.mpr hcl), if_pos hcl]
  · rw [if_neg (fun hh => hcl (hclamp_iff.mp hh)), if_neg hcl]

/-- Under the documented input ranges a live month always produces a
positive payment with a principal component between 0 and the balance. -/
theorem computePayment_some_pos (rt : RepaymentType) (p : ℚ) (N pm : ℕ) (cp mr : ℚ)
    (hp : 0 < p) (hcp : 0 < cp) (hmr : 0 < mr) (hmr2 : mr ≤ 1 / 120)
    (hN : N ≤ 1024) (hpm : pm < N) :
    ∃ pay pc, computePayment rt p N pm cp mr = some (pay, pc) ∧
      0 < pay ∧ 0 ≤ pc ∧ pc ≤ cp := by
  cases rt with
  | equalPayment =>
    rw [computePayment_epay_char p N pm cp mr hcp hmr hmr2 hN hpm]
    have hpow : 1 < (1 + mr) ^ (N - pm) := one_lt_pow₀ (by linarith) (by omega)
    have hD : (0 : ℚ) < (1 + mr) ^ (N - pm) - 1 := by linarith
    have hpc_id : cp * (mr * (1 + mr) ^ (N - pm)) / ((1 + mr) ^ (N - pm) - 1) - cp * mr
        = cp * mr / ((1 + mr) ^ (N - pm) - 1) := by
      field_simp
      ring
    by_cases hcl : (1 + mr) ^ (N - pm) - 1 < mr
    · rw [if_pos hcl]
      refine ⟨_, _, rfl, ?_, hcp.le, le_refl cp⟩
      nlinarith
    · rw [if_neg hcl]
      refine ⟨_, _, rfl, ?_, ?_, ?_⟩
      · exact div_pos (mul_pos hcp (mul_pos hmr (by linarith))) hD
      · rw [hpc_id]
        exact (div_pos (mul_pos hcp hmr) hD).le
      · rw [hpc_id, div_le_iff₀ hD]
        nlinarith [not_lt.mp hcl]
  | equalPrincipal =>
    rw [computePayment_ep_char p N pm cp mr]
    have hNq : (0 : ℚ) < (N : ℚ) := by
      have : 0 < N := by omega
      exact_mod_cast this
    have hK : 0 < p / (N : ℚ) := div_pos hp hNq
    have hcpmr : 0 < cp * mr := mul_pos hcp hmr
    by_cases hcl : p / (N : ℚ) > cp
    · rw [if_pos hcl]
      exact ⟨_, _, rfl, by linarith, hcp.le, le_refl cp⟩
    · rw [if_neg hcl]
      exact ⟨_, _, rfl, by linarith, hK.le, not_lt.mp hcl⟩

/-- With the same parameters and rate, a strictly smaller positive balance
pays strictly less this month and stays no larger after the principal
reduction (strictly smaller while it remains positive). -/
theorem step_compare (rt : RepaymentType) (p : ℚ) (N pm : ℕ) (cp1 cp2 mr : ℚ)
    (hmr : 0 < mr) (hmr2 : mr ≤ 1 / 120) (hN : N ≤ 1024) (hpm : pm < N)
    (hcp2 : 0 < cp2) (hlt : cp2 < cp1) :
    ∃ pay1 pc1 pay2 pc2,
      computePayment rt p N pm cp1 mr = some (pay1, pc1) ∧
      computePayment rt p N pm cp2 mr = some (pay2, pc2) ∧
      pay2 < pay1 ∧ cp2 - pc2 ≤ cp1 - pc1 ∧
      (0 < cp2 - pc2 → cp2 - pc2 < cp1 - pc1) := by
  have hcp1 : 0 < cp1 := hcp2.trans hlt
  cases rt with
  | equalPayment =>
    rw [computePayment_epay_char p N pm cp1 mr hcp1 hmr hmr2 hN hpm,
      computePayment_epay_char p N pm cp2 mr hcp2 hmr hmr2 hN hpm]
    have hpow : 1 < (1 + mr) ^ (N - pm) := one_lt_pow₀ (by linarith) (by omega)
    have hD : (0 : ℚ) < (1 + mr) ^ (N - pm) - 1 := by linarith
    have hfac : ∀ c : ℚ,
        c - (c * (mr * (1 + mr) ^ (N - pm)) / ((1 + mr) ^ (N - pm) - 1) - c * mr)
          = c * (1 - mr / ((1 + mr) ^ (N - pm) - 1)) := by
      intro c
      field_simp
      ring
    by_cases hcl : (1 + mr) ^ (N - pm) - 1 < mr
    · rw [if_pos hcl, if_pos hcl]
      refine ⟨_, _, _, _, rfl, rfl, by nlinarith, by simp, ?_⟩
      intro h0
      rw [sub_self] at h0
      exact absurd h0 (lt_irrefl 0)
    · rw [if_neg hcl, if_neg hcl]
      have hq : 0 < mr * (1 + mr) ^ (N - pm) := mul_pos hmr (by linarith)
      refine ⟨_, _, _, _, rfl, rfl, ?_, ?_, ?_⟩
      · rw [div_lt_div_iff_of_pos_right hD]
        exact (mul_lt_mul_right hq).mpr hlt
      · rw [hfac cp1, hfac cp2]
        have hγ : 0 ≤ 1 - mr / ((1 + mr) ^ (N - pm) - 1) := by
          rw [sub_nonneg, div_le_one hD]
          exact not_lt.mp hcl
        exact mul_le_mul_of_nonneg_right hlt.le hγ
      · intro h0
        rw [hfac cp2] at h0
        rw [hfac cp1, hfac cp2]
        have hγpos : 0 < 1 - mr / ((1 + mr) ^ (N - pm) - 1) := by
          by_contra hle
          push_neg at hle
          nlinarith
        exact mul_lt_mul_of_pos_right hlt hγpos
  | equalPrincipal =>
    rw [computePayment_ep_char p N pm cp1 mr, computePayment_ep_char p N pm cp2 mr]
    have hmul : cp2 * mr < cp1 * mr := mul_lt_mul_of_pos_right hlt hmr
    by_cases h1 : p / (N : ℚ) > cp1 <;> by_cases h2 : p / (N : ℚ) > cp2
    · rw [if_pos h1, if_pos h2]
      refine ⟨_, _, _, _, rfl, rfl, by linarith, by simp, ?_⟩
      intro h0
      rw [sub_self] at h0
      exact absurd h0 (lt_irrefl 0)
    · exact absurd h1 (not_lt.mpr (le_trans (not_lt.mp h2) hlt.le))
    · rw [if_neg h1, if_pos h2]
      refine ⟨_, _, _, _, rfl, rfl, by linarith [hmul], ?_, ?_⟩
      · rw [sub_self]
        rw [sub_nonneg]
        exact not_lt.mp h1
      · intro h0
        rw [sub_self] at h0
        exact absurd h0 (lt_irrefl 0)
    · rw [if_neg h1, if_neg h2]
      refine ⟨_, _, _, _, rfl, rfl, by linarith, ?_, fun _ => ?_⟩
      · exact sub_le_sub_right hlt.le _
      · exact sub_lt_sub_right hlt _

theorem applyEarlyRepayments_inert (month : ℕ) :
    ∀ (l : List EarlyRepayment) (cp : ℚ), (∀ e ∈ l, ¬ 0 < e.amount) →
      applyEarlyRepayments month cp l = (cp, l) := by
  intro l
  induction l with
  | nil => intro cp _; rfl
  | cons er rest ih =>
    intro cp hall
    have h : ¬ (month = er.month ∧ 0 < er.amount) := fun hh => hall er (by simp) hh.2
    have hrest := ih cp fun e he => hall e (List.mem_cons_of_mem er he)
    simp only [applyEarlyRepayments, if_neg h, hrest]

theorem computePayment_rc_nil (rt : RepaymentType) (p : ℚ) (N : ℕ) (month : ℕ)
    (st : SimState) (mr pay pc : ℚ) (hmr1 : st.current_monthly_rate = mr)
    (hE : computePayment rt p N st.payments_made st.current_principal mr = some (pay, pc)) :
    computePayment rt p N st.payments_made st.current_principal
      (applyRateChanges month [] st.current_annual_rate st.current_monthly_rate).2
      = some (pay, pc) := by
  simp only [applyRateChanges_nil]
  rw [hmr1]
  exact hE

theorem monthStep_nil_rate (month : ℕ) (st : SimState) (pay pc mr : ℚ)
    (h : st.current_monthly_rate = mr) :
    (monthStep [] month st pay pc).current_monthly_rate = mr := by
  rw [monthStep_monthly_rate]
  simp only [applyRateChanges_nil]
  exact h

/-- A single run under the documented rate range never aborts and its total
only grows. -/
theorem loanLoop_run (rt : RepaymentType) (p : ℚ) (N : ℕ) (mr : ℚ)
    (hp : 0 < p) (hmr : 0 < mr) (hmr2 : mr ≤ 1 / 120) (hN : N ≤ 1024) :
    ∀ (fuel month : ℕ) (st : SimState),
      st.current_monthly_rate = mr →
      st.payments_made + 1 = month →
      month + fuel = N + 1 →
      ∃ st', loanLoop rt p N [] month fuel st = .ok st' ∧
        st.total_payment ≤ st'.total_payment := by
  intro fuel
  induction fuel with
  | zero =>
    intro month st _ _ _
    exact ⟨st, by rw [loanLoop], le_refl _⟩
  | succ fuel ih =>
    intro month st hmr1 hpm hfm
    by_cases hcp : st.current_principal ≤ 0
    · exact ⟨{ st with balance_history := st.balance_history ++ zerosFrom month N },
        by simp only [loanLoop, if_pos hcp], le_refl _⟩
    · obtain ⟨pay, pc, hE, hpay, hpc0, hpccp⟩ := computePayment_some_pos rt p N
        st.payments_made st.current_principal mr hp (not_le.mp hcp) hmr hmr2 hN (by omega)
      have hE' := computePayment_rc_nil rt p N month st mr pay pc hmr1 hE
      have hc1 : (monthStep [] month st pay pc).current_monthly_rate = mr :=
        monthStep_nil_rate month st pay pc mr hmr1
      have hc2 : (monthStep [] month st pay pc).payments_made + 1 = month + 1 := by
        rw [monthStep_payments_made]
        omega
      obtain ⟨st', hrun, htot⟩ := ih (month + 1) (monthStep [] month st pay pc) hc1 hc2
        (by omega)
      refine ⟨st', ?_, ?_⟩
      · simp only [loanLoop, if_neg hcp, hE']
        exact hrun
      · rw [monthStep_total_payment] at htot
        linarith

/-- Core comparison: from the same month on, with the same fixed rate and
only spent extra-payment entries, a run whose balance is strictly smaller
(or already paid off with no larger total) ends with strictly smaller total
paid or strictly smaller final balance. -/
theorem loanLoop_compare (rt : RepaymentType) (p : ℚ) (N : ℕ) (mr : ℚ)
    (hp : 0 < p) (hmr : 0 < mr) (hmr2 : mr ≤ 1 / 120) (hN : N ≤ 1024) :
    ∀ (fuel month : ℕ) (st1 st2 : SimState),
      st1.current_monthly_rate = mr → st2.current_monthly_rate = mr →
      st1.payments_made + 1 = month → st2.payments_made + 1 = month →
      month + fuel = N + 1 →
      (∀ e ∈ st1.early_repayments, ¬ 0 < e.amount) →
      (∀ e ∈ st2.early_repayments, ¬ 0 < e.amount) →
      st2.total_payment ≤ st1.total_payment →
      ((0 < st2.current_principal ∧ st2.current_principal < st1.current_principal) ∨
        (st2.current_principal ≤ 0 ∧ 0 < st1.current_principal) ∨
        (st2.current_principal ≤ 0 ∧ st1.current_principal ≤ 0 ∧
          st2.total_payment < st1.total_payment)) →
      ∃ st1' st2',
        loanLoop rt p N [] month fuel st1 = .ok st1' ∧
        loanLoop rt p N [] month fuel st2 = .ok st2' ∧
        (st2'.total_payment < st1'.total_payment ∨
          max 0 st2'.current_principal < max 0 st1'.current_principal) := by
  intro fuel
  induction fuel with
  | zero =>
    intro month st1 st2 _ _ _ _ _ _ _ hts hinv
    refine ⟨st1, st2, by rw [loanLoop], by rw [loanLoop], ?_⟩
    rcases hinv with ⟨h1, h2⟩ | ⟨h1, h2⟩ | ⟨h1, h2, h3⟩
    · right
      rw [max_eq_right h1.le, max_eq_right (h1.trans h2).le]
      exact h2
    · right
      rw [max_eq_left h1, max_eq_right h2.le]
      exact h2
    · left
      exact h3
  | succ fuel ih =>
    intro month st1 st2 hm1 hm2 hpm1 hpm2 hfm hin1 hin2 hts hinv
    by_cases hcp2 : st2.current_principal ≤ 0
    · by_cases hcp1 : st1.current_principal ≤ 0
      · refine ⟨{ st1 with balance_history := st1.balance_history ++ zerosFrom month N },
          { st2 with balance_history := st2.balance_history ++ zerosFrom month N },
          by simp only [loanLoop, if_pos hcp1],
          by simp only [loanLoop, if_pos hcp2], ?_⟩
        left
        show st2.total_payment < st1.total_payment
        rcases hinv with ⟨h1, _⟩ | ⟨_, h2⟩ | ⟨_, _, h3⟩
        · exact absurd h1 (not_lt.mpr hcp2)
        · exact absurd h2 (not_lt.mpr hcp1)
        · exact h3
      · have hcp1' : 0 < st1.current_principal := not_le.mp hcp1
        obtain ⟨pay, pc, hE, hpay, hpc0, hpccp⟩ := computePayment_some_pos rt p N
          st1.payments_made st1.current_principal mr hp hcp1' hmr hmr2 hN (by omega)
        have hE' := computePayment_rc_nil rt p N month st1 mr pay pc hm1 hE
        have hc1 : (monthStep [] month st1 pay pc).current_monthly_rate = mr :=
          monthStep_nil_rate month st1 pay pc mr hm1
        have hc2 : (monthStep [] month st1 pay pc).payments_made + 1 = month + 1 := by
          rw [monthStep_payments_made]
          omega
        obtain ⟨st1', hrun1, htot1⟩ := loanLoop_run rt p N mr hp hmr hmr2 hN fuel
          (month + 1) (monthStep [] month st1 pay pc) hc1 hc2 (by omega)
        refine ⟨st1', { st2 with balance_history :=
            st2.balance_history ++ zerosFrom month N }, ?_,
          by simp only [loanLoop, if_pos hcp2], ?_⟩
        · simp only [loanLoop, if_neg hcp1, hE']
          exact hrun1
        · left
          show st2.total_payment < st1'.total_payment
          rw [monthStep_total_payment] at htot1
          linarith
    · have hcp2' : 0 < st2.current_principal := not_le.mp hcp2
      have hlt : st2.current_principal < st1.current_principal := by
        rcases hinv with ⟨_, h⟩ | ⟨h1, _⟩ | ⟨h1, _, _⟩
        · exact h
        · exact absurd h1 (not_le.mpr hcp2')
        · exact absurd h1 (not_le.mpr hcp2')
      have hcp1' : 0 < st1.current_principal := hcp2'.trans hlt
      obtain ⟨pay1, pc1, pay2, pc2, hE1, hE2, hpay, hle, hstrict⟩ := step_compare rt p N
        st1.payments_made st1.current_principal st2.current_principal mr hmr hmr2 hN
        (by omega) hcp2' hlt
      have hpmeq : st2.payments_made = st1.payments_made := by omega
      have hE2s : computePayment rt p N st2.payments_made st2.current_principal mr
          = some (pay2, pc2) := by
        rw [hpmeq]
        exact hE2
      have hE1' := computePayment_rc_nil rt p N month st1 mr pay1 pc1 hm1 hE1
      have hE2' := computePayment_rc_nil rt p N month st2 mr pay2 pc2 hm2 hE2s
      have hcp1n : (monthStep [] month st1 pay1 pc1).current_principal
          = st1.current_principal - pc1 := by
        rw [monthStep_current_principal,
          applyEarlyRepayments_inert month st1.early_repayments _ hin1]
      have hcp2n : (monthStep [] month st2 pay2 pc2).current_principal
          = st2.current_principal - pc2 := by
        rw [monthStep_current_principal,
          applyEarlyRepayments_inert month st2.early_repayments _ hin2]
      have hers1 : (monthStep [] month st1 pay1 pc1).early_repayments
          = st1.early_repayments := by
        rw [monthStep_early_repayments,
          applyEarlyRepayments_inert month st1.early_repayments _ hin1]
      have hers2 : (monthStep [] month st2 pay2 pc2).early_repayments
          = st2.early_repayments := by
        rw [monthStep_early_repayments,
          applyEarlyRepayments_inert month st2.early_repayments _ hin2]
      have htot1 : (monthStep [] month st1 pay1 pc1).total_payment
          = st1.total_payment + pay1 := monthStep_total_payment [] month st1 pay1 pc1
      have htot2 : (monthStep [] month st2 pay2 pc2).total_payment
          = st2.total_payment + pay2 := monthStep_total_payment [] month st2 pay2 pc2
      have htotlt : (monthStep [] month st2 pay2 pc2).total_payment
          < (monthStep [] month st1 pay1 pc1).total_payment := by
        rw [htot1, htot2]
        linarith
      have hinv' :
          (0 < (monthStep [] month st2 pay2 pc2).current_principal ∧
            (monthStep [] month st2 pay2 pc2).current_principal
              < (monthStep [] month st1 pay1 pc1).current_principal) ∨
          ((monthStep [] month st2 pay2 pc2).current_principal ≤ 0 ∧
            0 < (monthStep [] month st1 pay1 pc1).current_principal) ∨
          ((monthStep [] month st2 pay2 pc2).current_principal ≤ 0 ∧
            (monthStep [] month st1 pay1 pc1).current_principal ≤ 0 ∧
            (monthStep [] month st2 pay2 pc2).total_payment
              < (monthStep [] month st1 pay1 pc1).total_payment) := by
        rw [hcp1n, hcp2n]
        by_cases h2n : 0 < st2.current_principal - pc2
        · exact Or.inl ⟨h2n, hstrict h2n⟩
        · by_cases h1n : 0 < st1.current_principal - pc1
          · exact Or.inr (Or.inl ⟨not_lt.mp h2n, h1n⟩)
          · exact Or.inr (Or.inr ⟨not_lt.mp h2n, not_lt.mp h1n, htotlt⟩)
      obtain ⟨st1', st2', hr1, hr2, hrel⟩ := ih (month + 1)
        (monthStep [] month st1 pay1 pc1) (monthStep [] month st2 pay2 pc2)
        (monthStep_nil_rate month st1 pay1 pc1 mr hm1)
        (monthStep_nil_rate month st2 pay2 pc2 mr hm2)
        (by rw [monthStep_payments_made]; omega)
        (by rw [monthStep_payments_made]; omega)
        (by omega)
        (by rw [hers1]; exact hin1)
        (by rw [hers2]; exact hin2)
        htotlt.le hinv'
      refine ⟨st1', st2', ?_, ?_, hrel⟩
      · simp only [loanLoop, if_neg (not_le.mpr hcp1'), hE1']
        exact hr1
      · simp only [loanLoop, if_neg hcp2, hE2']
        exact hr2

theorem loanLoop_hist_append (rt : RepaymentType) (p : ℚ) (N : ℕ) (rcs : List RateChange) :
    ∀ (fuel month : ℕ) (st st' : SimState),
      loanLoop rt p N rcs month fuel st = .ok st' →
      ∃ t, st'.balance_history = st.balance_history ++ t := by
  intro fuel
  induction fuel with
  | zero =>
    intro month st st' h
    rw [loanLoop] at h
    injection h with h
    exact ⟨[], by rw [← h, List.append_nil]⟩
  | succ fuel ih =>
    intro month st st' h
    by_cases hcp : st.current_principal ≤ 0
    · simp only [loanLoop, if_pos hcp] at h
      injection h with h
      exact ⟨zerosFrom month N, by rw [← h]⟩
    · cases hE : computePayment rt p N st.payments_made st.current_principal
          (applyRateChanges month rcs st.current_annual_rate st.current_monthly_rate).2 with
      | none =>
        simp only [loanLoop, if_neg hcp, hE] at h
        exact LoopOut.noConfusion h
      | some q =>
        obtain ⟨payment, pc⟩ := q
        simp only [loanLoop, if_neg hcp, hE] at h
        obtain ⟨t, ht⟩ := ih (month + 1) (monthStep rcs month st payment pc) st' h
        rw [monthStep_balance_history] at ht
        refine ⟨[(month, max 0 (applyEarlyRepayments month (st.current_principal - pc)
          st.early_repayments).1)] ++ t, ?_⟩
        rw [ht, List.append_assoc]

theorem zeros_getD (h : List (ℕ × ℚ)) (m N i : ℕ)
    (hlen : h.length ≤ i) (hcount : i - h.length < N + 1 - m) :
    ((h ++ zerosFrom m N).getD i (0, 0)).2 = 0 := by
  rw [List.getD_eq_getElem?_getD, List.getElem?_append_right hlen, zerosFrom,
    List.getElem?_map, List.getElem?_range' m 1 hcount]
  rfl

theorem hist12_getD (h : List (ℕ × ℚ)) (x : ℕ × ℚ) (t : List (ℕ × ℚ))
    (hlen : h.length = 11) :
    ((h ++ ([x] ++ t)).getD 11 (0, 0)) = x := by
  rw [List.getD_eq_getElem?_getD, List.getElem?_append_right hlen.le, hlen]
  simp

/-- From any month `≤ 12`, a run whose recorded month-12 balance is positive
is strictly beaten (in total paid or final balance) by the same run carrying
one live extra payment scheduled at month 12. -/
theorem loanLoop_extra12 (rt : RepaymentType) (p : ℚ) (N : ℕ) (mr a : ℚ)
    (hp : 0 < p) (hmr : 0 < mr) (hmr2 : mr ≤ 1 / 120) (hN : N ≤ 1024) (hN12 : 12 ≤ N)
    (ha : 0 < a) :
    ∀ (fuel month : ℕ) (st : SimState),
      st.current_monthly_rate = mr →
      st.payments_made + 1 = month →
      month + fuel = N + 1 →
      month ≤ 12 →
      st.early_repayments = [] →
      st.balance_history.length + 1 = month →
      ∀ st1', loanLoop rt p N [] month fuel st = .ok st1' →
      0 < (st1'.balance_history.getD 11 (0, 0)).2 →
      ∃ st2', loanLoop rt p N [] month fuel
          { st with early_repayments := [⟨12, a⟩] } = .ok st2' ∧
        (st2'.total_payment < st1'.total_payment ∨
          max 0 st2'.current_principal < max 0 st1'.current_principal) := by
  intro fuel
  induction fuel with
  | zero =>
    intro month st _ _ hfm hm12 _ _ st1' _ _
    omega
  | succ fuel ih =>
    intro month st hmr1 hpm hfm hm12 hers hlen st1' hrun1 hpos
    by_cases hcp : st.current_principal ≤ 0
    · exfalso
      simp only [loanLoop, if_pos hcp] at hrun1
      injection hrun1 with hrun1
      rw [← hrun1] at hpos
      have h0 := zeros_getD st.balance_history month N 11 (by omega) (by omega)
      rw [h0] at hpos
      exact absurd hpos (lt_irrefl 0)
    · cases hE : computePayment rt p N st.payments_made st.current_principal
          (applyRateChanges month [] st.current_annual_rate st.current_monthly_rate).2 with
      | none =>
        exfalso
        simp only [loanLoop, if_neg hcp, hE] at hrun1
        exact LoopOut.noConfusion hrun1
      | some q =>
        obtain ⟨payment, pc⟩ := q
        simp only [loanLoop, if_neg hcp, hE] at hrun1
        by_cases hm : month = 12
        · subst hm
          have hcp1n : (monthStep [] 12 st payment pc).current_principal
              = st.current_principal - pc := by
            rw [monthStep_current_principal, hers]
            rfl
          obtain ⟨t, ht⟩ := loanLoop_hist_append rt p N [] fuel 13
            (monthStep [] 12 st payment pc) st1' hrun1
          have hval : st1'.balance_history.getD 11 (0, 0)
              = (12, max 0 (st.current_principal - pc)) := by
            rw [ht, monthStep_balance_history, hers]
            simp only [applyEarlyRepayments]
            rw [List.append_assoc]
            exact hist12_getD st.balance_history _ t (by omega)
          rw [hval] at hpos
          have hb : 0 < st.current_principal - pc := by
            rcases lt_max_iff.mp hpos with h | h
            · exact absurd h (lt_irrefl 0)
            · exact h
          have hstep2cp : (monthStep [] 12 { st with early_repayments := [⟨12, a⟩] }
              payment pc).current_principal = st.current_principal - pc - a := by
            rw [monthStep_current_principal]
            show (applyEarlyRepayments 12 (st.current_principal - pc) [⟨12, a⟩]).1 = _
            rw [applyEarlyRepayments_single_hit 12 _ a ha]
          have hstep2ers : (monthStep [] 12 { st with early_repayments := [⟨12, a⟩] }
              payment pc).early_repayments = [⟨12, 0⟩] := by
            rw [monthStep_early_repayments]
            show (applyEarlyRepayments 12 (st.current_principal - pc) [⟨12, a⟩]).2 = _
            rw [applyEarlyRepayments_single_hit 12 _ a ha]
          have hers1n : ∀ e ∈ (monthStep [] 12 st payment pc).early_repayments,
              ¬ 0 < e.amount := by
            rw [monthStep_early_repayments, hers]
            simp [applyEarlyRepayments]
          have hers2n : ∀ e ∈ (monthStep [] 12 { st with early_repayments := [⟨12, a⟩] }
              payment pc).early_repayments, ¬ 0 < e.amount := by
            rw [hstep2ers]
            simp
          have htoteq : (monthStep [] 12 { st with early_repayments := [⟨12, a⟩] }
              payment pc).total_payment ≤ (monthStep [] 12 st payment pc).total_payment := by
            rw [monthStep_total_payment, monthStep_total_payment]
          have hinv :
              (0 < (monthStep [] 12 { st with early_repayments := [⟨12, a⟩] }
                  payment pc).current_principal ∧
                (monthStep [] 12 { st with early_repayments := [⟨12, a⟩] }
                  payment pc).current_principal
                  < (monthStep [] 12 st payment pc).current_principal) ∨
              ((monthStep [] 12 { st with early_repayments := [⟨12, a⟩] }
                  payment pc).current_principal ≤ 0 ∧
                0 < (monthStep [] 12 st payment pc).current_principal) ∨
              ((monthStep [] 12 { st with early_repayments := [⟨12, a⟩] }
                  payment pc).current_principal ≤ 0 ∧
                (monthStep [] 12 st payment pc).current_principal ≤ 0 ∧
                (monthStep [] 12 { st with early_repayments := [⟨12, a⟩] }
                  payment pc).total_payment
                  < (monthStep [] 12 st payment pc).total_payment) := by
            rw [hstep2cp, hcp1n]
            by_cases hba : 0 < st.current_principal - pc - a
            · exact Or.inl ⟨hba, by linarith⟩
            · exact Or.inr (Or.inl ⟨not_lt.mp hba, hb⟩)
          obtain ⟨st1'', st2', hr1, hr2, hrel⟩ := loanLoop_compare rt p N mr hp hmr hmr2 hN
            fuel 13 (monthStep [] 12 st payment pc)
            (monthStep [] 12 { st with early_repayments := [⟨12, a⟩] } payment pc)
            (monthStep_nil_rate 12 st payment pc mr hmr1)
            (monthStep_nil_rate 12 { st with early_repayments := [⟨12, a⟩] } payment pc mr hmr1)
            (by rw [monthStep_payments_made]; omega)
            (by rw [monthStep_payments_made]; dsimp only; omega)
            (by omega) hers1n hers2n htoteq hinv
          rw [hrun1] at hr1
          injection hr1 with hr1
          refine ⟨st2', ?_, ?_⟩
          · simp only [loanLoop, if_neg hcp, hE]
            exact hr2
          · rw [hr1]
            exact hrel
        · have hswap : monthStep [] month { st with early_repayments := [⟨12, a⟩] }
              payment pc = { (monthStep [] month st payment pc) with
                early_repayments := [⟨12, a⟩] } := by
            have hne : ¬ (month = 12 ∧ 0 < a) := fun hh => hm hh.1
            simp [monthStep, hers, applyEarlyRepayments, hne]
          obtain ⟨st2', hr2, hrel⟩ := ih (month + 1) (monthStep [] month st payment pc)
            (monthStep_nil_rate month st payment pc mr hmr1)
            (by rw [monthStep_payments_made]; omega)
            (by omega) (by omega)
            (by rw [monthStep_early_repayments, hers]; rfl)
            (by rw [monthStep_balance_history, List.length_append]; simp; omega)
            st1' hrun1 hpos
          refine ⟨st2', ?_, hrel⟩
          · simp only [loanLoop, if_neg hcp, hE]
            rw [hswap]
            exact hr2

/-- C10 (amended).  For a configuration within the documented input ranges
(positive principal, rate in (0, 10], term in [1, 50] years, no rate changes
and no other extra payments) whose recorded balance at month 12 is still
positive — i.e. the loan is not already paid off by month 12's scheduled
payment, which is the case the counterexample excludes — adding a single
extra payment of positive amount at month 12 strictly decreases
`total_payment` and/or `final_balance`. -/
theorem calculate_loan_extra_payment_reduces_cost (cfg : LoanConfig) (a : ℚ)
    (hers : cfg.early_repayments = []) (hrcs : cfg.rate_changes = [])
    (hp : 0 < cfg.loan_amount - cfg.down_payment)
    (hr1 : 0 < cfg.annual_interest_rate) (hr2 : cfg.annual_interest_rate ≤ 10)
    (ht1 : 1 ≤ cfg.loan_term_years) (ht2 : cfg.loan_term_years ≤ 50)
    (ha : 0 < a)
    (hpos : 0 < ((calculate_loan cfg).balance_history.getD 11 (0, 0)).2) :
    (calculate_loan { cfg with early_repayments := [⟨12, a⟩] }).total_payment
        < (calculate_loan cfg).total_payment ∨
    (calculate_loan { cfg with early_repayments := [⟨12, a⟩] }).final_balance
        < (calculate_loan cfg).final_balance := by
  have hple : ¬ cfg.loan_amount - cfg.down_payment ≤ 0 := not_le.mpr hp
  have hmr : 0 < cfg.annual_interest_rate / 100 / 12 := by positivity
  have hmr2 : cfg.annual_interest_rate / 100 / 12 ≤ 1 / 120 := by linarith
  have hN : cfg.loan_term_years * 12 ≤ 1024 := by omega
  have hN12 : 12 ≤ cfg.loan_term_years * 12 := by omega
  have hsrc : sortedRateChanges cfg = [] := by
    rw [sortedRateChanges, hrcs]
    rfl
  have hser : sortedEarlyRepayments cfg = [] := by
    rw [sortedEarlyRepayments, hers]
    rfl
  have hsrc2 : sortedRateChanges { cfg with early_repayments := [⟨12, a⟩] } = [] := by
    rw [sortedRateChanges]
    dsimp only
    rw [hrcs]
    rfl
  have hser2 : sortedEarlyRepayments { cfg with early_repayments := [⟨12, a⟩] }
      = [⟨12, a⟩] := by
    rw [sortedEarlyRepayments]
    dsimp only
    simp [ha]
  rw [calculate_loan, calcLoanFull] at hpos
  simp only [if_neg hple] at hpos
  cases hout : calcLoanOut cfg with
  | overflow b ers0 =>
    exfalso
    rw [hout] at hpos
    simp at hpos
  | ok st1' =>
    rw [hout] at hpos
    have hlenN := loanLoop_ok_length cfg.repayment_type (cfg.loan_amount - cfg.down_payment)
      (cfg.loan_term_years * 12) (sortedRateChanges cfg) (cfg.loan_term_years * 12) 1
      (initState cfg) st1' (by omega) rfl hout
    have hpad : padHistory st1'.balance_history (cfg.loan_term_years * 12)
        = st1'.balance_history := by
      rw [padHistory, hlenN]
      simp
    have hpos' : 0 < ((padHistory st1'.balance_history
        (cfg.loan_term_years * 12)).getD 11 (0, 0)).2 := hpos
    rw [hpad] at hpos'
    have hout' : loanLoop cfg.repayment_type (cfg.loan_amount - cfg.down_payment)
        (cfg.loan_term_years * 12) [] 1 (cfg.loan_term_years * 12) (initState cfg)
        = .ok st1' := by
      rw [← hsrc]
      exact hout
    obtain ⟨st2', hr2, hrel⟩ := loanLoop_extra12 cfg.repayment_type
      (cfg.loan_amount - cfg.down_payment) (cfg.loan_term_years * 12)
      (cfg.annual_interest_rate / 100 / 12) a hp hmr hmr2 hN hN12 ha
      (cfg.loan_term_years * 12) 1 (initState cfg) rfl rfl (by omega) (by omega)
      hser rfl st1' hout' hpos'
    have hinit2 : initState { cfg with early_repayments := [⟨12, a⟩] }
        = { initState cfg with early_repayments := [⟨12, a⟩] } := by
      rw [initState, initState]
      dsimp only
      rw [hser2]
    have hout2 : calcLoanOut { cfg with early_repayments := [⟨12, a⟩] } = .ok st2' := by
      rw [calcLoanOut]
      dsimp only
      rw [hsrc2, hinit2]
      exact hr2
    rw [calculate_loan, calculate_loan, calcLoanFull, calcLoanFull]
    dsimp only
    simp only [if_neg hple]
    rw [hout, hout2]
    exact hrel

/-- C10 counterexample to the unconditional claim.  With principal 1200,
annual rate 6/5 % (monthly rate exactly 1/1000), a 1-year EQUAL_PAYMENT
term and no down payment, the exact annuity pays the loan off precisely at
month 12's scheduled payment; a positive extra payment scheduled at that
same month 12 is applied to an already-zero balance, so neither
`total_payment` nor `final_balance` decreases — both results coincide. -/
theorem calculate_loan_extra_payment_no_reduction :
    ¬ ((calculate_loan ⟨1200, 6/5, 1, .equalPayment, 0, [⟨12, 100⟩], []⟩).total_payment
        < (calculate_loan ⟨1200, 6/5, 1, .equalPayment, 0, [], []⟩).total_payment ∨
      (calculate_loan ⟨1200, 6/5, 1, .equalPayment, 0, [⟨12, 100⟩], []⟩).final_balance
        < (calculate_loan ⟨1200, 6/5, 1, .equalPayment, 0, [], []⟩).final_balance) := by
  norm_num [calculate_loan, calcLoanFull, calcLoanOut, initState, sortedEarlyRepayments,
    sortedRateChanges, loanLoop, monthStep, computePayment, applyEarlyRepayments,
    applyRateChanges, addAnnual, zerosFrom, padHistory, floatMax, List.filter,
    List.insertionSort, List.orderedInsert, max_def]

/-- C10 witness: EQUAL_PRINCIPAL, principal 1200, rate 6/5 %, 2-year term;
the balance recorded at month 12 is 600 > 0, so the amended theorem applies
to a 100-unit extra payment at month 12. -/
theorem calculate_loan_extra_payment_reduces_cost_witness :
    (calculate_loan ⟨1200, 6/5, 2, .equalPrincipal, 0, [⟨12, 100⟩], []⟩).total_payment
        < (calculate_loan ⟨1200, 6/5, 2, .equalPrincipal, 0, [], []⟩).total_payment ∨
    (calculate_loan ⟨1200, 6/5, 2, .equalPrincipal, 0, [⟨12, 100⟩], []⟩).final_balance
        < (calculate_loan ⟨1200, 6/5, 2, .equalPrincipal, 0, [], []⟩).final_balance :=
  calculate_loan_extra_payment_reduces_cost ⟨1200, 6/5, 2, .equalPrincipal, 0, [], []⟩ 100
    rfl rfl (by norm_num) (by norm_num) (by norm_num) (by norm_num) (by norm_num)
    (by norm_num)
    (by norm_num [calculate_loan, calcLoanFull, calcLoanOut, initState,
      sortedEarlyRepayments, sortedRateChanges, loanLoop, monthStep, computePayment,
      applyEarlyRepayments, applyRateChanges, addAnnual, zerosFrom, padHistory,
      floatMax, List.filter, List.insertionSort, List.orderedInsert])
